import Mathlib

/-!
# Formal model of the random-dash listing pipeline

Shallow embedding of the listing ingestion, caching and deal-scoring core of
the random-dash repository (`src/craigslist_scraper.py`, `src/portal_listings.py`,
`src/database.py`), together with theorems settling the frozen claims about it.

Modelling conventions:
* Python strings are lists of characters (`Str`); the handful of string methods
  the code uses (`lower`, `strip`, `replace` with one-character patterns) are
  defined structurally so that they evaluate inside the kernel.
* Python floats are idealised as exact rationals.  `round(x, 1)` is modelled as
  round-half-to-even at one decimal (`pyRound1`), `int(x)` as truncation toward
  zero (`pyTrunc`), `f"{x:.0f}"` as round-half-to-even to an integer.
* Python dictionaries holding the listing fields become the record `Apt`; a
  field that may be `None` becomes an `Option`.  Python truthiness tests
  (`if not apt.get("price")`, `if market_rate`, `x or -999`) are modelled
  exactly, including their behaviour on `0`.
* Mutation of a listing dict in place becomes a function `Apt → Apt`; mutation
  of a batch is tracked by tagging each listing with its input position.
* The SQLite budget table becomes an association list keyed by the month
  string; the module locks serialise every operation, so a sequence of
  concurrent calls is modelled as a fold over the attempts.
* External effects (HTTP fetch, the Claude call, the persisted-cache write) are
  inputs of the model: the model returns, next to its result, how many external
  calls the control flow performed, and fallible steps are `Option`/`Except`
  valued parameters.
-/

namespace RandomDash

/-- Python strings, modelled as lists of characters. -/
abbrev Str := List Char

/-- ASCII lower-casing of one character (Python `str.lower` on the ASCII
strings this code manipulates). -/
def lowerChar (c : Char) : Char :=
  if 'A' ≤ c ∧ c ≤ 'Z' then Char.ofNat (c.toNat + 32) else c

/-- Python `str.lower()`. -/
def pyLower (s : Str) : Str := s.map lowerChar

/-- Python whitespace (`str.strip` default / regex `\s`). -/
def pyIsSpace (c : Char) : Bool :=
  c = ' ' ∨ c = '\t' ∨ c = '\n' ∨ c = '\r' ∨ c = '\x0b' ∨ c = '\x0c'

/-- Python `str.strip()`. -/
def pyStrip (s : Str) : Str :=
  ((s.dropWhile pyIsSpace).reverse.dropWhile pyIsSpace).reverse

/-- Python `str.replace(a, b)` for one-character `a`, `b` (the only form the
scoring code uses: `" " ↦ "-"` and `"-" ↦ " "`). -/
def replaceChar (a b : Char) (s : Str) : Str :=
  s.map fun c => if c = a then b else c

/-- Python `int(x)` on a float: truncation toward zero, on the exact-rational
idealisation. -/
def pyTrunc (q : ℚ) : ℤ :=
  if 0 ≤ q then ⌊q⌋ else -⌊-q⌋

/-- Round half to even to an integer: Python `round(x)` / `f"{x:.0f}"` on the
exact-rational idealisation. -/
def roundHalfEven (q : ℚ) : ℤ :=
  let f := ⌊q⌋
  if q - f < 1/2 then f
  else if (1:ℚ)/2 < q - f then f + 1
  else if f % 2 = 0 then f else f + 1

/-- Python `round(x, 1)`: round half to even at one decimal. -/
def pyRound1 (q : ℚ) : ℚ := (roundHalfEven (10 * q) : ℚ) / 10

/-- Python `min(100, max(0, base))`. -/
def clampScore (base : ℤ) : ℤ := min 100 (max 0 base)

/-- `laundry_type`: `"in_unit"` or `"in_building"` (a missing/`None` field is
`Option.none` at the use site). -/
inductive Laundry where
  | inUnit
  | inBuilding
deriving DecidableEq

/-- The canonical listing record (the dict built by `parse_listing` /
`_normalize`).  Only the fields the verified claims touch are carried;
`price_per_sqft`, `posted_date`, the thumbnail and the geolocation fields are
never read by the scoring, budgeting or caching logic under verification. -/
structure Apt where
  title : Str := []
  url : Option Str := none
  price : Option ℕ := none
  neighborhood : Option Str := none
  bedrooms : Option ℕ := none
  bathrooms : Option ℚ := none
  sqft : Option ℕ := none
  laundry_type : Option Laundry := none
  parking : Bool := false
  deal_score : Option ℤ := none
  deal_analysis : Option Str := none
  discount_pct : Option ℚ := none
deriving DecidableEq

/-- Python truthiness of `apt.get("price")`: `None` and `0` are both falsy. -/
def truthyPrice : Option ℕ → Bool
  | none => false
  | some p => p ≠ 0

/-- A per-neighborhood rate table: bedroom bucket key ↦ expected monthly rate
(`{"studio": 2300, "1br": 2900, ...}`). -/
abbrev BedRates := List (Str × ℚ)

/-- A market-rate table: neighborhood key ↦ bedroom-bucket table, plus the
`"default"` bucket that `get_neighborhood_market_rates` /
`get_stanford_market_rates` always supply (the scraper scorer indexes
`market_rates["default"]` unconditionally). -/
structure MarketRates where
  table : List (Str × BedRates)
  dflt : BedRates

/-- `"studio" if bedrooms == 0 else f"{min(bedrooms, 3)}br"`, spelled out per
bucket. -/
def bedKey (b : ℕ) : Str :=
  if b = 0 then "studio".data
  else if b = 1 then "1br".data
  else if b = 2 then "2br".data
  else "3br".data

/-- Neighborhood lookup key of the scraper scorer
(`neighborhood.lower().strip().replace(" ", "-")`, after `or ""`). -/
def hoodKeyCL (nb : Option Str) : Str :=
  replaceChar ' ' '-' (pyStrip (pyLower (nb.getD [])))

/-- The scraper scorer `_compute_discount_and_score` (craigslist_scraper.py):
sets `discount_pct`, `deal_score` and `deal_analysis` on the listing and
reports whether the listing is valid for ranking. -/
def computeDiscountAndScore (rates : MarketRates) (apt : Apt) : Apt × Bool :=
  if ¬ truthyPrice apt.price then
    ({ apt with deal_score := some 0,
                deal_analysis := some "Price information missing.".data,
                discount_pct := none }, false)
  else match apt.bedrooms with
  | none =>
    ({ apt with deal_score := some 40,
                deal_analysis := some "Bedroom count not specified — difficult to evaluate value.".data,
                discount_pct := none }, false)
  | some b =>
    let p : ℚ := (apt.price.getD 0 : ℕ)
    let hk0 := hoodKeyCL apt.neighborhood
    let hk := if (rates.table.lookup hk0).isNone then replaceChar '-' ' ' hk0 else hk0
    let hoodRates := (rates.table.lookup hk).getD rates.dflt
    let marketRate : Option ℚ := (hoodRates.lookup (bedKey b)).or (hoodRates.lookup "1br".data)
    let discount : ℚ :=
      match marketRate with
      | some m => if m ≠ 0 then pyRound1 ((m - p) / m * 100) else 0
      | none => 0
    let base : ℤ := 50 + pyTrunc discount
      + (match apt.laundry_type with
         | some .inUnit => 3
         | some .inBuilding => 1
         | none => 0)
      + (if apt.parking then 2 else 0)
    ({ apt with discount_pct := some discount,
                deal_score := some (clampScore base),
                deal_analysis := none }, true)

/-- Neighborhood lookup key of the portal scorer
(`(apt.get("neighborhood") or "").strip()`, then
`neighborhood.lower().replace(" ", "-") if neighborhood else "default"`). -/
def hoodKeyP (nb : Option Str) : Str :=
  let s := pyStrip (nb.getD [])
  if s = [] then "default".data else replaceChar ' ' '-' (pyLower s)

/-- `neighborhood or 'area'` inside the portal analysis f-strings
(applied to the already-stripped neighborhood). -/
def hoodName (nb : Option Str) : Str :=
  let s := pyStrip (nb.getD [])
  if s = [] then "area".data else s

/-- `" ".join(parts)` (the part list the portal scorer joins is always
non-empty, so the final `or` fallback in the source is never taken). -/
def joinSpace : List Str → Str
  | [] => []
  | [s] => s
  | s :: rest => s ++ " ".data ++ joinSpace rest

/-- The portal scorer `_score_portal_listing` (portal_listings.py): sets
`deal_score`, `discount_pct` and `deal_analysis` in place.  The portal table
is a plain dict, so the `"default"` bucket is looked up by key with `{}` as
final fallback, and the bedroom bucket falls back to `rates.get("1br", 3000)`. -/
def scorePortalListing (table : List (Str × BedRates)) (apt : Apt) : Apt :=
  if ¬ truthyPrice apt.price then
    { apt with deal_score := some 0,
               deal_analysis := some "Price information missing.".data,
               discount_pct := none }
  else match apt.bedrooms with
  | none =>
    { apt with deal_score := some 40,
               deal_analysis := some "Bedroom count not specified — difficult to evaluate value.".data,
               discount_pct := none }
  | some b =>
    let p : ℚ := (apt.price.getD 0 : ℕ)
    let hk0 := hoodKeyP apt.neighborhood
    let hk := if (table.lookup hk0).isNone then replaceChar '-' ' ' hk0 else hk0
    let hoodRates := (table.lookup hk).getD ((table.lookup "default".data).getD [])
    let marketRate : ℚ := (hoodRates.lookup (bedKey b)).getD ((hoodRates.lookup "1br".data).getD 3000)
    let discount : ℚ := if marketRate ≠ 0 then pyRound1 ((marketRate - p) / marketRate * 100) else 0
    let base : ℤ := 50 + pyTrunc discount
      + (match apt.laundry_type with
         | some .inUnit => 6
         | some .inBuilding => 2
         | none => 0)
      + (if apt.parking then 4 else 0)
      + (match apt.bathrooms with
         | some bt => if 0 < b then (if 1 ≤ bt / (b : ℚ) then 3 else if 3/4 ≤ bt / (b : ℚ) then 1 else 0) else 0
         | none => 0)
      + (match apt.sqft with
         | some s => if s ≠ 0 ∧ 0 < b then
             (if 600 ≤ (s : ℚ) / (b : ℚ) then 2 else if 500 ≤ (s : ℚ) / (b : ℚ) then 1 else 0)
           else 0
         | none => 0)
    let parts : List Str :=
      [ if 5 < discount then
          "~".data ++ (toString (roundHalfEven discount)).data ++ "% below market for ".data
            ++ bedKey b ++ " in ".data ++ hoodName apt.neighborhood ++ ".".data
        else if discount < -5 then
          "~".data ++ (toString (roundHalfEven |discount|)).data ++ "% above typical for ".data
            ++ bedKey b ++ " in ".data ++ hoodName apt.neighborhood ++ ".".data
        else
          "Roughly at market for ".data ++ bedKey b ++ " in ".data ++ hoodName apt.neighborhood ++ ".".data ]
      ++ (match apt.laundry_type with
          | some .inUnit => ["In-unit laundry.".data]
          | some .inBuilding => ["Laundry in building.".data]
          | none => [])
      ++ (if apt.parking then ["Parking.".data] else [])
    { apt with discount_pct := some discount,
               deal_score := some (clampScore base),
               deal_analysis := some (joinSpace parts) }

/-! ## Budget ledger (`database.py`)

The SQLite table `api_call_counter (month_year TEXT PRIMARY KEY, call_count, last_reset)`
is modelled as an association list month ↦ count (`last_reset` is write-only
audit data and carries no behaviour).  The module-level lock serialises the
whole read/insert/update sequence, so a batch of concurrent callers is a fold
over the attempts in some order. -/

/-- The hard cap: the literal `50` of `WHERE ... AND call_count < 50`. -/
def MAX_MONTHLY_CALLS : ℕ := 50

/-- The `api_call_counter` table: one row per calendar month. -/
abbrev CounterTable := List (Str × ℕ)

/-- `get_monthly_api_call_count`: the stored count for the month, `0` when no
row exists. -/
def get_monthly_api_call_count (month : Str) (tbl : CounterTable) : ℕ :=
  (tbl.lookup month).getD 0

/-- `INSERT OR IGNORE INTO api_call_counter VALUES (month, 0, now)`. -/
def ensureRow (month : Str) (tbl : CounterTable) : CounterTable :=
  if (tbl.lookup month).isSome then tbl else tbl ++ [(month, 0)]

/-- `UPDATE api_call_counter SET call_count = call_count + 1
WHERE month_year = ? AND call_count < 50`; the boolean is
`cursor.rowcount > 0`. -/
def condIncrement (month : Str) : CounterTable → Bool × CounterTable
  | [] => (false, [])
  | (k, c) :: rest =>
    let r := condIncrement month rest
    if k = month ∧ c < MAX_MONTHLY_CALLS then (true, (k, c + 1) :: r.2)
    else (r.1, (k, c) :: r.2)

/-- `increment_api_call_count` (database.py): ensure the month row exists, then
atomically increment it iff its count is still under the cap; returns whether
the increment happened (the whole body runs under the module lock). -/
def increment_api_call_count (month : Str) (tbl : CounterTable) : Bool × CounterTable :=
  condIncrement month (ensureRow month tbl)

/-- A sequence of `n` calls to `increment_api_call_count` (concurrent callers
are serialised by the lock): number of successful calls and final table. -/
def runIncrements (month : Str) : ℕ → CounterTable → ℕ × CounterTable
  | 0, tbl => (0, tbl)
  | n + 1, tbl =>
    let r := increment_api_call_count month tbl
    let s := runIncrements month n r.2
    ((if r.1 then 1 else 0) + s.1, s.2)

/-! ## Claim C2: the spec formula for the deal score

`claimDealScore` transcribes the claim sentence itself (discount formula with
no one-decimal rounding, `round` of the discount, bath:bedroom bonus on 2+
bedroom units only), using the portal scorer bonus magnitudes for the "fixed
bonuses" the claim leaves unnumbered.  `portalAmenityBonus` /
`scraperAmenityBonus` and `portalResolvedRate` state the amended reading. -/

/-- Market-rate resolution as both the claim and the portal code describe it:
area label (with default-bucket fallback on miss), bedroom bucket capped at
`3br`, `1br`-rate fallback (then the hard-coded 3000). -/
def portalResolvedRate (table : List (Str × BedRates)) (nb : Option Str) (b : ℕ) : ℚ :=
  let hk0 := hoodKeyP nb
  let hk := if (table.lookup hk0).isNone then replaceChar '-' ' ' hk0 else hk0
  let hoodRates := (table.lookup hk).getD ((table.lookup "default".data).getD [])
  (hoodRates.lookup (bedKey b)).getD ((hoodRates.lookup "1br".data).getD 3000)

/-- The amenity bonus exactly as claim C2 words it: laundry tier, parking,
bath:bedroom ratio ≥ 1.0 / ≥ 0.75 **on 2+ bedroom units only**, and
area-per-bedroom above the thresholds. -/
def claimAmenityBonus (apt : Apt) (b : ℕ) : ℤ :=
  (match apt.laundry_type with
   | some .inUnit => 6
   | some .inBuilding => 2
   | none => 0)
  + (if apt.parking then 4 else 0)
  + (match apt.bathrooms with
     | some bt => if 2 ≤ b then (if 1 ≤ bt / (b : ℚ) then 3 else if 3/4 ≤ bt / (b : ℚ) then 1 else 0) else 0
     | none => 0)
  + (match apt.sqft with
     | some s => if s ≠ 0 ∧ 0 < b then
         (if 600 ≤ (s : ℚ) / (b : ℚ) then 2 else if 500 ≤ (s : ℚ) / (b : ℚ) then 1 else 0)
       else 0
     | none => 0)

/-- `dealScore = clamp(50 + round(discountPct) + amenityBonus, 0, 100)` with
`discountPct = (marketRate - price) / marketRate * 100`, exactly as claim C2
states it. -/
def claimDealScore (table : List (Str × BedRates)) (apt : Apt) (p b : ℕ) : ℤ :=
  let mr := portalResolvedRate table apt.neighborhood b
  let discountPct : ℚ := (mr - (p : ℚ)) / mr * 100
  clampScore (50 + roundHalfEven discountPct + claimAmenityBonus apt b)

/-- The portal amenity bonus as the code computes it (amended reading of C2):
the bath:bedroom bonus applies to every unit with at least one bedroom. -/
def portalAmenityBonus (apt : Apt) (b : ℕ) : ℤ :=
  (match apt.laundry_type with
   | some .inUnit => 6
   | some .inBuilding => 2
   | none => 0)
  + (if apt.parking then 4 else 0)
  + (match apt.bathrooms with
     | some bt => if 0 < b then (if 1 ≤ bt / (b : ℚ) then 3 else if 3/4 ≤ bt / (b : ℚ) then 1 else 0) else 0
     | none => 0)
  + (match apt.sqft with
     | some s => if s ≠ 0 ∧ 0 < b then
         (if 600 ≤ (s : ℚ) / (b : ℚ) then 2 else if 500 ≤ (s : ℚ) / (b : ℚ) then 1 else 0)
       else 0
     | none => 0)

/-- The scraper amenity bonus as the code computes it (amended reading of C2):
only the laundry tier (+3/+1) and parking (+2) bonuses exist on this path. -/
def scraperAmenityBonus (apt : Apt) : ℤ :=
  (match apt.laundry_type with
   | some .inUnit => 3
   | some .inBuilding => 1
   | none => 0)
  + (if apt.parking then 2 else 0)

/-- Market-rate resolution of the scraper scorer: same label/bucket scheme,
but the table always carries a `"default"` entry and the `1br` fallback may
fail (`hood_rates.get("1br")` with no second default). -/
def scraperResolvedRate (rates : MarketRates) (nb : Option Str) (b : ℕ) : Option ℚ :=
  let hk0 := hoodKeyCL nb
  let hk := if (rates.table.lookup hk0).isNone then replaceChar '-' ' ' hk0 else hk0
  let hoodRates := (rates.table.lookup hk).getD rates.dflt
  (hoodRates.lookup (bedKey b)).or (hoodRates.lookup "1br".data)

/-! ## Ledger lemmas -/

lemma lookup_eq_none_of_not_mem {m : Str} :
    ∀ {tbl : CounterTable}, m ∉ tbl.map Prod.fst → tbl.lookup m = none := by
  intro tbl
  induction tbl with
  | nil => intro _; rfl
  | cons e rest ih =>
    intro h
    obtain ⟨k, v⟩ := e
    simp only [List.map_cons, List.mem_cons] at h
    push_neg at h
    simp only [List.lookup]
    rw [show (m == k) = false from beq_eq_false_iff_ne.mpr h.1]
    exact ih h.2

lemma condIncrement_of_none {m : Str} :
    ∀ {tbl : CounterTable}, tbl.lookup m = none → condIncrement m tbl = (false, tbl) := by
  intro tbl
  induction tbl with
  | nil => intro _; rfl
  | cons e rest ih =>
    intro h
    obtain ⟨k, v⟩ := e
    simp only [List.lookup] at h
    rcases hkm : (m == k) with _ | _
    · rw [hkm] at h
      simp only [condIncrement, ih h]
      have : ¬ (k = m ∧ v < MAX_MONTHLY_CALLS) := by
        rintro ⟨rfl, -⟩
        simp at hkm
      simp [this]
    · rw [hkm] at h
      simp at h

lemma condIncrement_keys (m : Str) :
    ∀ tbl : CounterTable, ((condIncrement m tbl).2).map Prod.fst = tbl.map Prod.fst := by
  intro tbl
  induction tbl with
  | nil => rfl
  | cons e rest ih =>
    obtain ⟨k, v⟩ := e
    by_cases h : k = m ∧ v < MAX_MONTHLY_CALLS
    · simp [condIncrement, h, ih]
    · simp [condIncrement, h, ih]

lemma condIncrement_of_some {m : Str} {c : ℕ} :
    ∀ {tbl : CounterTable}, (tbl.map Prod.fst).Nodup → tbl.lookup m = some c →
      (condIncrement m tbl).1 = decide (c < MAX_MONTHLY_CALLS) ∧
      ((condIncrement m tbl).2).lookup m =
        some (if c < MAX_MONTHLY_CALLS then c + 1 else c) := by
  intro tbl
  induction tbl with
  | nil => intro _ h; simp [List.lookup] at h
  | cons e rest ih =>
    intro hnd h
    obtain ⟨k, v⟩ := e
    simp only [List.map_cons, List.nodup_cons] at hnd
    simp only [List.lookup] at h
    rcases hkm : (m == k) with _ | _
    · rw [hkm] at h
      have hne : ¬ (k = m ∧ v < MAX_MONTHLY_CALLS) := by
        rintro ⟨rfl, -⟩
        simp at hkm
      have := ih hnd.2 h
      simp only [condIncrement, hne, if_false]
      refine ⟨this.1, ?_⟩
      simp only [List.lookup, hkm]
      exact this.2
    · have hkeq : m = k := by simpa using hkm
      subst hkeq
      rw [hkm] at h
      have hvc : v = c := by simpa using h
      subst hvc
      have hrest : rest.lookup m = none :=
        lookup_eq_none_of_not_mem hnd.1
      by_cases hc : v < MAX_MONTHLY_CALLS
      · simp only [condIncrement, hc, and_self, if_true]
        constructor
        · simp [hc]
        · simp [List.lookup, hc]
      · have hne : ¬ (m = m ∧ v < MAX_MONTHLY_CALLS) := fun hh => hc hh.2
        simp only [condIncrement, hne, if_false]
        rw [condIncrement_of_none hrest]
        constructor
        · simp [hc]
        · simp [List.lookup, hc]

lemma ensureRow_count (m : Str) (tbl : CounterTable) :
    (ensureRow m tbl).lookup m = some (get_monthly_api_call_count m tbl) := by
  unfold ensureRow get_monthly_api_call_count
  rcases h : tbl.lookup m with _ | c
  · simp only [h, Option.isSome_none, Bool.false_eq_true, if_false, Option.getD_none]
    induction tbl with
    | nil => simp [List.lookup]
    | cons e rest ih =>
      obtain ⟨k, v⟩ := e
      simp only [List.lookup] at h ⊢
      rcases hkm : (m == k) with _ | _
      · rw [hkm] at h
        simp only [List.cons_append, List.lookup, hkm]
        exact ih h
      · rw [hkm] at h; simp at h
  · simp [h]

lemma lookup_isSome_of_mem {m : Str} :
    ∀ {tbl : CounterTable}, m ∈ tbl.map Prod.fst → (tbl.lookup m).isSome := by
  intro tbl
  induction tbl with
  | nil => intro h; simp at h
  | cons e rest ih =>
    intro h
    obtain ⟨k, v⟩ := e
    simp only [List.lookup]
    rcases hkm : (m == k) with _ | _
    · have : m ≠ k := by simpa using hkm
      simp only [List.map_cons, List.mem_cons] at h
      exact ih (h.resolve_left this)
    · simp

lemma ensureRow_keys_nodup {m : Str} {tbl : CounterTable}
    (hnd : (tbl.map Prod.fst).Nodup) : ((ensureRow m tbl).map Prod.fst).Nodup := by
  unfold ensureRow
  rcases h : tbl.lookup m with _ | c
  · simp only [h, Option.isSome_none, Bool.false_eq_true, if_false]
    rw [List.map_append]
    apply List.Nodup.append hnd (by simp)
    intro a ha hb
    simp only [List.map_cons, List.map_nil, List.mem_singleton] at hb
    subst hb
    have := lookup_isSome_of_mem ha
    rw [h] at this
    simp at this
  · simp only [h, Option.isSome_some, if_true]
    exact hnd

lemma increment_spec {m : Str} {tbl : CounterTable}
    (hnd : (tbl.map Prod.fst).Nodup) :
    ((increment_api_call_count m tbl).1 =
        decide (get_monthly_api_call_count m tbl < MAX_MONTHLY_CALLS)) ∧
    get_monthly_api_call_count m (increment_api_call_count m tbl).2 =
      (if get_monthly_api_call_count m tbl < MAX_MONTHLY_CALLS then
        get_monthly_api_call_count m tbl + 1 else get_monthly_api_call_count m tbl) ∧
    (((increment_api_call_count m tbl).2).map Prod.fst).Nodup := by
  have h1 := ensureRow_count m tbl
  have h2 := ensureRow_keys_nodup (m := m) hnd
  have h3 := condIncrement_of_some (m := m) h2 h1
  unfold increment_api_call_count
  refine ⟨h3.1, ?_, ?_⟩
  · show ((condIncrement m (ensureRow m tbl)).2.lookup m).getD 0 = _
    rw [h3.2]
    rfl
  · rw [condIncrement_keys]
    exact h2

lemma runIncrements_spec (m : Str) :
    ∀ (n : ℕ) (tbl : CounterTable), (tbl.map Prod.fst).Nodup →
      get_monthly_api_call_count m tbl ≤ MAX_MONTHLY_CALLS →
      (runIncrements m n tbl).1 =
          min n (MAX_MONTHLY_CALLS - get_monthly_api_call_count m tbl) ∧
      get_monthly_api_call_count m (runIncrements m n tbl).2 =
          min MAX_MONTHLY_CALLS (get_monthly_api_call_count m tbl + n) := by
  intro n
  induction n with
  | zero => intro tbl _ hle; simp [runIncrements, Nat.min_eq_right hle]
  | succ k ih =>
    intro tbl hnd hle
    obtain ⟨hs, hcount, hnd2⟩ := increment_spec (m := m) hnd
    set c := get_monthly_api_call_count m tbl with hc
    by_cases hlt : c < MAX_MONTHLY_CALLS
    · have hcount2 : get_monthly_api_call_count m (increment_api_call_count m tbl).2 = c + 1 := by
        rw [hcount]; simp [hlt]
      have hle2 : c + 1 ≤ MAX_MONTHLY_CALLS := hlt
      obtain ⟨ihs, ihc⟩ := ih (increment_api_call_count m tbl).2 hnd2 (hcount2 ▸ hle2)
      rw [hcount2] at ihs ihc
      simp only [runIncrements]
      constructor
      · rw [hs, ihs]
        have hd : decide (c < MAX_MONTHLY_CALLS) = true := by simp [hlt]
        rw [hd]
        simp only [if_true]
        omega
      · rw [ihc]
        omega
    · have hcount2 : get_monthly_api_call_count m (increment_api_call_count m tbl).2 = c := by
        rw [hcount]; simp [hlt]
      obtain ⟨ihs, ihc⟩ := ih (increment_api_call_count m tbl).2 hnd2 (hcount2 ▸ hle)
      rw [hcount2] at ihs ihc
      simp only [runIncrements]
      constructor
      · rw [hs, ihs]
        have hd : decide (c < MAX_MONTHLY_CALLS) = false := by simp [hlt]
        rw [hd]
        simp only [Bool.false_eq_true, if_false]
        omega
      · rw [ihc]
        omega

/-- C1.  `increment_api_call_count` returns true and increments the current
month row iff the stored count is strictly below 50; otherwise it returns
false and leaves the count unchanged; hence after any number of attempts the
count never exceeds 50, and `n` attempts with `50 - c` capacity left succeed
exactly `min n (50 - c)` times.  (Hypothesis: `month_year` is the table's
primary key, so its keys are distinct; the module lock serialises callers.) -/
theorem budget_ledger_atomic_cap (m : Str) (tbl : CounterTable)
    (hnd : (tbl.map Prod.fst).Nodup) :
    ((increment_api_call_count m tbl).1 = true ↔
        get_monthly_api_call_count m tbl < MAX_MONTHLY_CALLS) ∧
    (get_monthly_api_call_count m tbl < MAX_MONTHLY_CALLS →
        get_monthly_api_call_count m (increment_api_call_count m tbl).2 =
          get_monthly_api_call_count m tbl + 1) ∧
    (MAX_MONTHLY_CALLS ≤ get_monthly_api_call_count m tbl →
        get_monthly_api_call_count m (increment_api_call_count m tbl).2 =
          get_monthly_api_call_count m tbl) ∧
    (get_monthly_api_call_count m tbl ≤ MAX_MONTHLY_CALLS →
      ∀ n : ℕ,
        (runIncrements m n tbl).1 =
            min n (MAX_MONTHLY_CALLS - get_monthly_api_call_count m tbl) ∧
        get_monthly_api_call_count m (runIncrements m n tbl).2 ≤ MAX_MONTHLY_CALLS) := by
  obtain ⟨hs, hcount, -⟩ := increment_spec (m := m) hnd
  refine ⟨?_, ?_, ?_, ?_⟩
  · rw [hs]; simp
  · intro hlt; rw [hcount]; simp [hlt]
  · intro hge
    rw [hcount]
    have : ¬ get_monthly_api_call_count m tbl < MAX_MONTHLY_CALLS := by omega
    simp [this]
  · intro hle n
    obtain ⟨h1, h2⟩ := runIncrements_spec m n tbl hnd hle
    exact ⟨h1, by rw [h2]; omega⟩

/-- Witness for C1: on the empty table (count 0) an increment succeeds, and 60
attempts succeed exactly 50 times with the final count capped at 50. -/
theorem budget_ledger_atomic_cap_witness :
    ((increment_api_call_count "2026-03".data []).1 = true) ∧
    (runIncrements "2026-03".data 60 []).1 = 50 ∧
    get_monthly_api_call_count "2026-03".data (runIncrements "2026-03".data 60 []).2 ≤ 50 := by
  have h := budget_ledger_atomic_cap "2026-03".data [] (by simp)
  have hc : get_monthly_api_call_count "2026-03".data ([] : CounterTable) = 0 := rfl
  refine ⟨h.1.mpr (by rw [hc]; decide), ?_, ?_⟩
  · have := (h.2.2.2 (by rw [hc]; decide) 60).1
    rw [hc] at this
    simpa [MAX_MONTHLY_CALLS] using this
  · have := (h.2.2.2 (by rw [hc]; decide) 60).2
    simpa [MAX_MONTHLY_CALLS] using this

/-! ## Claim C2 theorems -/

/-- The discount the portal scorer stores: the claim formula rounded to one
decimal (and `0` when the resolved rate is `0`, per the Python truthiness
guard `if market_rate`). -/
def portalDiscount (table : List (Str × BedRates)) (nb : Option Str) (b p : ℕ) : ℚ :=
  let mr := portalResolvedRate table nb b
  if mr ≠ 0 then pyRound1 ((mr - (p : ℚ)) / mr * 100) else 0

/-- The discount the scraper scorer stores (the `1br` fallback may miss, in
which case the discount is `0`). -/
def scraperDiscount (rates : MarketRates) (nb : Option Str) (b p : ℕ) : ℚ :=
  match scraperResolvedRate rates nb b with
  | some m => if m ≠ 0 then pyRound1 ((m - (p : ℚ)) / m * 100) else 0
  | none => 0

/-- Input refuting claim C2 as stated: a 1-bedroom, 1-bath unit at 992 against
a 1000 market rate (discount exactly 0.8%). -/
def c2Table : List (Str × BedRates) := [("default".data, [("1br".data, (1000:ℚ))])]

/-- The listing for the C2 counterexample. -/
def c2Apt : Apt := { price := some 992, bedrooms := some 1, bathrooms := some 1 }

/-- C2 counterexample: on `c2Apt` the portal scorer returns 53
(`int(0.8) = 0` plus a +3 bath:bedroom bonus on a 1-bedroom unit), while the
claim formula — `round(0.8) = 1` (any tie-free rounding) and the bath bonus
restricted to 2+ bedroom units — gives 51. -/
theorem deal_score_round_claim_counterexample :
    (scorePortalListing c2Table c2Apt).deal_score = some 53 ∧
    claimDealScore c2Table c2Apt 992 1 = 51 ∧
    (scorePortalListing c2Table c2Apt).deal_score ≠
      some (claimDealScore c2Table c2Apt 992 1) := by
  refine ⟨?_, ?_, ?_⟩ <;>
    norm_num [scorePortalListing, claimDealScore, claimAmenityBonus, portalResolvedRate,
      c2Table, c2Apt, hoodKeyP, pyStrip, pyLower, replaceChar, bedKey, truthyPrice,
      pyRound1, pyTrunc, roundHalfEven, clampScore, List.lookup]

/-- C2 (amended).  For every listing with a truthy price and a bedroom count,
the portal scorer stores `discount_pct = round₁((marketRate - price) /
marketRate · 100)` with the market rate resolved by area label (default-bucket
fallback) and bedroom bucket capped at `3br` (1br-rate fallback), and
`deal_score = clamp(50 + trunc(discount) + bonus, 0, 100)` where `trunc`
truncates toward zero and the bath:bedroom bonus applies to every unit with at
least one bedroom; the scraper scorer does the same with only the laundry and
parking bonuses. -/
theorem deal_score_code_formula (table : List (Str × BedRates)) (rates : MarketRates)
    (apt : Apt) (p b : ℕ) (hp : apt.price = some p) (hp0 : p ≠ 0)
    (hb : apt.bedrooms = some b) :
    (scorePortalListing table apt).discount_pct =
        some (portalDiscount table apt.neighborhood b p) ∧
    (scorePortalListing table apt).deal_score =
        some (clampScore (50 + pyTrunc (portalDiscount table apt.neighborhood b p)
          + portalAmenityBonus apt b)) ∧
    (computeDiscountAndScore rates apt).1.discount_pct =
        some (scraperDiscount rates apt.neighborhood b p) ∧
    (computeDiscountAndScore rates apt).1.deal_score =
        some (clampScore (50 + pyTrunc (scraperDiscount rates apt.neighborhood b p)
          + scraperAmenityBonus apt)) := by
  have htruthy2 : truthyPrice (some p) = true := by simp [truthyPrice, hp0]
  refine ⟨?_, ?_, ?_, ?_⟩ <;>
    simp only [scorePortalListing, computeDiscountAndScore, hp, hb, htruthy2, not_true,
      Bool.not_true, Bool.false_eq_true, if_false, portalDiscount, scraperDiscount,
      portalResolvedRate, scraperResolvedRate, portalAmenityBonus, scraperAmenityBonus,
      Option.getD_some] <;>
    first
    | rfl
    | (refine congrArg some (congrArg clampScore ?_); ring)

/-- Witness for C2 (amended) at the concrete counterexample input. -/
theorem deal_score_code_formula_witness :
    c2Apt.price = some 992 ∧ c2Apt.bedrooms = some 1 ∧
    (scorePortalListing c2Table c2Apt).deal_score =
      some (clampScore (50 + pyTrunc (portalDiscount c2Table c2Apt.neighborhood 1 992)
        + portalAmenityBonus c2Apt 1)) ∧
    (computeDiscountAndScore ⟨[], [("1br".data, (1000:ℚ))]⟩ c2Apt).1.deal_score =
      some (clampScore (50 + pyTrunc (scraperDiscount ⟨[], [("1br".data, (1000:ℚ))]⟩
        c2Apt.neighborhood 1 992) + scraperAmenityBonus c2Apt)) := by
  have h := deal_score_code_formula c2Table ⟨[], [("1br".data, (1000:ℚ))]⟩ c2Apt 992 1
    rfl (by norm_num) rfl
  exact ⟨rfl, rfl, h.2.1, h.2.2.2⟩

/-! ## Stable sorting

Python `list.sort(key=..., reverse=...)` is a stable sort; any two stable
sorts agree on a total preorder, so stable insertion sort models it. -/

/-- Stable insertion: place `x` before the first `y` with `le x y`. -/
def insertLe {α : Type} (le : α → α → Bool) (x : α) : List α → List α
  | [] => [x]
  | y :: ys => if le x y then x :: y :: ys else y :: insertLe le x ys

/-- Stable insertion sort. -/
def sortLe {α : Type} (le : α → α → Bool) : List α → List α
  | [] => []
  | x :: xs => insertLe le x (sortLe le xs)

lemma insertLe_perm {α : Type} (le : α → α → Bool) (x : α) :
    ∀ l : List α, (insertLe le x l).Perm (x :: l) := by
  intro l
  induction l with
  | nil => simp [insertLe]
  | cons y ys ih =>
    by_cases h : le x y
    · simp [insertLe, h]
    · simp only [insertLe, h, Bool.false_eq_true, if_false]
      exact (List.Perm.cons y ih).trans (List.Perm.swap x y ys)

lemma sortLe_perm {α : Type} (le : α → α → Bool) :
    ∀ l : List α, (sortLe le l).Perm l := by
  intro l
  induction l with
  | nil => simp [sortLe]
  | cons x xs ih =>
    exact (insertLe_perm le x (sortLe le xs)).trans (ih.cons x)

lemma insertLe_pairwise {α : Type} (le : α → α → Bool)
    (htrans : ∀ a b c, le a b = true → le b c = true → le a c = true)
    (htot : ∀ a b, le a b = true ∨ le b a = true) (x : α) :
    ∀ l : List α, l.Pairwise (fun a b => le a b = true) →
      (insertLe le x l).Pairwise (fun a b => le a b = true) := by
  intro l
  induction l with
  | nil => intro _; simp [insertLe]
  | cons y ys ih =>
    intro h
    rw [List.pairwise_cons] at h
    by_cases hxy : le x y
    · simp only [insertLe, hxy, if_true]
      rw [List.pairwise_cons]
      constructor
      · intro z hz
        rw [List.mem_cons] at hz
        rcases hz with hz | hz
        · subst hz; exact hxy
        · exact htrans x y z hxy (h.1 z hz)
      · exact List.pairwise_cons.mpr h
    · simp only [insertLe, hxy, Bool.false_eq_true, if_false]
      rw [List.pairwise_cons]
      constructor
      · intro z hz
        have hz2 := (insertLe_perm le x ys).mem_iff.mp hz
        rw [List.mem_cons] at hz2
        rcases hz2 with hz2 | hz2
        · subst hz2
          rcases htot y z with hh | hh
          · exact hh
          · exact absurd hh (by simpa using hxy)
        · exact h.1 z hz2
      · exact ih h.2

lemma sortLe_pairwise {α : Type} (le : α → α → Bool)
    (htrans : ∀ a b c, le a b = true → le b c = true → le a c = true)
    (htot : ∀ a b, le a b = true ∨ le b a = true) :
    ∀ l : List α, (sortLe le l).Pairwise (fun a b => le a b = true) := by
  intro l
  induction l with
  | nil => simp [sortLe]
  | cons x xs ih => exact insertLe_pairwise le htrans htot x _ ih

/-! ## Enrichment pipeline (`analyze_apartment_deals` and its cached wrapper)

In-place mutation of the listing dicts is tracked by tagging every listing
with its position in the input batch; all sorts and updates carry the tag
along unchanged. -/

/-- `AI_ANALYSIS_TOP_N = 20`. -/
def AI_ANALYSIS_TOP_N : ℕ := 20

/-- The local placeholder written to every valid listing outside the top 20. -/
def notTop20Msg : Str :=
  "Not in top 20 — no AI summary. See price vs market % above.".data

/-- Tagged listing: input position × listing. -/
abbrev TApt := ℕ × Apt

/-- Tag a batch with consecutive positions starting at `n`. -/
def tagFrom {α : Type} : ℕ → List α → List (ℕ × α)
  | _, [] => []
  | n, x :: xs => (n, x) :: tagFrom (n + 1) xs

/-- Sort key `x.get("deal_score", 0)` (every valid listing has an integer
score at this point). -/
def scoreKey (a : Apt) : ℤ := a.deal_score.getD 0

/-- Sort key `x.get("discount_pct") or -999`: Python `or` sends both a null
and an exactly-zero discount to `-999`. -/
def discountKey (a : Apt) : ℚ :=
  match a.discount_pct with
  | some d => if d = 0 then -999 else d
  | none => -999

/-- `valid.sort(key=deal_score, reverse=True)` comparison on tagged listings. -/
def scoreLeT (a b : TApt) : Bool := decide (scoreKey b.2 ≤ scoreKey a.2)

/-- `valid.sort(key=discount key, reverse=True)` comparison on tagged listings. -/
def discountLeT (a b : TApt) : Bool := decide (discountKey b.2 ≤ discountKey a.2)

/-- One run of `analyze_apartment_deals` over a tagged batch:
`full` is the final in-place state of every input listing (original order),
`returned` is the list the function returns (valid listings only),
`aiSelected` is the sub-batch handed to `_call_claude_for_apartment`, and
`candidateOrder` is the discount-ordered candidate list the selection uses. -/
structure DealsRun where
  full : List TApt
  returned : List TApt
  aiSelected : List TApt
  candidateOrder : List TApt

/-- Core of `analyze_apartment_deals` (craigslist_scraper.py) over a tagged
batch.  `claude` is the in-place effect of one `_call_claude_for_apartment`
call (an external text-completion request). -/
def analyzeDealsCore (rates : MarketRates) (claude : Apt → Apt)
    (maxReturn : Option ℕ) (tagged : List TApt) : DealsRun :=
  let scored := tagged.map fun p => (p.1, computeDiscountAndScore rates p.2)
  let base := scored.map fun p => (p.1, p.2.1)
  let valid := (scored.filter fun p => p.2.2).map fun p => (p.1, p.2.1)
  let v1 := sortLe scoreLeT valid
  let v2 := match maxReturn with
    | some m => if m < v1.length then v1.take m else v1
    | none => v1
  let v3 := sortLe discountLeT v2
  let top := v3.take AI_ANALYSIS_TOP_N
  let rest := v3.drop AI_ANALYSIS_TOP_N
  let top2 := top.map fun p => (p.1, claude p.2)
  let rest2 := rest.map fun p => (p.1, { p.2 with deal_analysis := some notTop20Msg })
  let ret := sortLe scoreLeT (top2 ++ rest2)
  let full := base.map fun p =>
    match ret.find? (fun q => q.1 == p.1) with
    | some q => (p.1, q.2)
    | none => p
  ⟨full, ret, top, v3⟩

/-- `analyze_apartment_deals`: returns the scored valid listings (top 20 by
discount get the external analysis, the rest the local placeholder). -/
def analyze_apartment_deals (rates : MarketRates) (claude : Apt → Apt)
    (maxReturn : Option ℕ) (apts : List Apt) : List Apt :=
  if apts = [] then []
  else ((analyzeDealsCore rates claude maxReturn (tagFrom 0 apts)).returned).map Prod.snd

/-- Applying a hit of the analysis cache to a listing
(`apt["deal_score"] = cached["deal_score"]`, etc.). -/
def applyCachedEntry (a : Apt) (e : Option ℤ × Option Str × Option ℚ) : Apt :=
  { a with deal_score := e.1, deal_analysis := e.2.1, discount_pct := e.2.2 }

/-- Final sort key of the cached wrapper:
`(x.get("deal_score") is None, -(x.get("deal_score") or 0))`, ascending
lexicographic. -/
def cachedLe (a b : Apt) : Bool :=
  decide ((a.deal_score.isNone = b.deal_score.isNone ∧
            -(a.deal_score.getD 0) ≤ -(b.deal_score.getD 0)) ∨
          (a.deal_score.isNone = false ∧ b.deal_score.isNone = true))

/-- `analyze_apartment_deals_cached`: serve cached analyses, run
`analyze_apartment_deals` (with `max_return=None`) on the misses in place,
then sort the *original* batch and trim.  `cacheL` is `_get_cached_analysis`
(keyed on the listing URL; misses and expired entries are `none`). -/
def analyze_apartment_deals_cached
    (cacheL : Apt → Option (Option ℤ × Option Str × Option ℚ))
    (rates : MarketRates) (claude : Apt → Apt) (maxReturn : Option ℕ)
    (apts : List Apt) : List Apt :=
  if apts = [] then []
  else
    let tagged := tagFrom 0 apts
    let hits := tagged.filterMap fun p => (cacheL p.2).map fun e => (p.1, applyCachedEntry p.2 e)
    let misses := tagged.filter fun p => (cacheL p.2).isNone
    let run := analyzeDealsCore rates claude none misses
    let full := tagged.map fun p =>
      match (hits ++ run.full).find? (fun q => q.1 == p.1) with
      | some q => q.2
      | none => p.2
    let sortedL := sortLe cachedLe full
    match maxReturn with
    | some m => sortedL.take m
    | none => sortedL

/-! ## Tagging and comparison lemmas -/

lemma tagFrom_tag_ge {α : Type} :
    ∀ (l : List α) (n : ℕ) (p : ℕ × α), p ∈ tagFrom n l → n ≤ p.1 := by
  intro l
  induction l with
  | nil => intro n p h; simp [tagFrom] at h
  | cons x xs ih =>
    intro n p h
    rw [tagFrom, List.mem_cons] at h
    rcases h with h | h
    · subst h; exact le_refl n
    · exact le_trans (Nat.le_succ n) (ih (n + 1) p h)

lemma tagFrom_inj {α : Type} :
    ∀ (l : List α) (n i : ℕ) (a b : α),
      (i, a) ∈ tagFrom n l → (i, b) ∈ tagFrom n l → a = b := by
  intro l
  induction l with
  | nil => intro n i a b h; simp [tagFrom] at h
  | cons x xs ih =>
    intro n i a b ha hb
    rw [tagFrom, List.mem_cons] at ha hb
    rcases ha with ha | ha <;> rcases hb with hb | hb
    · rw [(Prod.mk.injEq _ _ _ _).mp ha |>.2, (Prod.mk.injEq _ _ _ _).mp hb |>.2]
    · exfalso
      have h1 : i = n := ((Prod.mk.injEq _ _ _ _).mp ha).1
      have h2 := tagFrom_tag_ge xs (n + 1) (i, b) hb
      omega
    · exfalso
      have h1 : i = n := ((Prod.mk.injEq _ _ _ _).mp hb).1
      have h2 := tagFrom_tag_ge xs (n + 1) (i, a) ha
      omega
    · exact ih (n + 1) i a b ha hb

lemma mem_tagFrom_of_mem {α : Type} :
    ∀ (l : List α) (n : ℕ) (a : α), a ∈ l → ∃ i, (i, a) ∈ tagFrom n l := by
  intro l
  induction l with
  | nil => intro n a h; simp at h
  | cons x xs ih =>
    intro n a h
    rw [List.mem_cons] at h
    rcases h with h | h
    · subst h; exact ⟨n, by rw [tagFrom]; exact List.mem_cons_self _ _⟩
    · obtain ⟨i, hi⟩ := ih (n + 1) a h
      exact ⟨i, by rw [tagFrom]; exact List.mem_cons_of_mem _ hi⟩

lemma tagFrom_length {α : Type} :
    ∀ (l : List α) (n : ℕ), (tagFrom n l).length = l.length := by
  intro l
  induction l with
  | nil => intro n; rfl
  | cons x xs ih => intro n; rw [tagFrom]; simp [ih]

lemma discountLeT_trans :
    ∀ a b c : TApt, discountLeT a b = true → discountLeT b c = true → discountLeT a c = true := by
  intro a b c
  simp only [discountLeT, decide_eq_true_eq]
  exact fun h1 h2 => le_trans h2 h1

lemma discountLeT_total :
    ∀ a b : TApt, discountLeT a b = true ∨ discountLeT b a = true := by
  intro a b
  simp only [discountLeT, decide_eq_true_eq]
  exact le_total _ _

/-! ## Claim C5 theorems -/

/-- C5 (amended).  For every batch: the enrichment selection orders the valid
candidates descending by the key "discount if non-null and nonzero, else
−999" (discount-first, not the blended score), hands exactly the 20-prefix of
that order to the external call — never more than 20 calls, whatever the batch
size — every unselected candidate has key at most that of every selected one,
and every returned listing either carries the external analysis or the
non-blank local placeholder. -/
theorem enrichment_selector_spec (rates : MarketRates) (claude : Apt → Apt)
    (maxReturn : Option ℕ) (apts : List Apt) :
    (analyzeDealsCore rates claude maxReturn (tagFrom 0 apts)).aiSelected.length
        ≤ AI_ANALYSIS_TOP_N ∧
    (analyzeDealsCore rates claude maxReturn (tagFrom 0 apts)).candidateOrder.Pairwise
        (fun a b => discountKey b.2 ≤ discountKey a.2) ∧
    (analyzeDealsCore rates claude maxReturn (tagFrom 0 apts)).aiSelected =
        (analyzeDealsCore rates claude maxReturn (tagFrom 0 apts)).candidateOrder.take
          AI_ANALYSIS_TOP_N ∧
    (∀ x ∈ (analyzeDealsCore rates claude maxReturn (tagFrom 0 apts)).aiSelected,
      ∀ y ∈ (analyzeDealsCore rates claude maxReturn (tagFrom 0 apts)).candidateOrder.drop
          AI_ANALYSIS_TOP_N,
        discountKey y.2 ≤ discountKey x.2) ∧
    (∀ a ∈ analyze_apartment_deals rates claude maxReturn apts,
      (∃ p ∈ (analyzeDealsCore rates claude maxReturn (tagFrom 0 apts)).aiSelected,
          a = claude p.2) ∨
      (a.deal_analysis = some notTop20Msg ∧ notTop20Msg ≠ [])) := by
  have hpw : (analyzeDealsCore rates claude maxReturn (tagFrom 0 apts)).candidateOrder.Pairwise
      (fun a b => discountLeT a b = true) :=
    sortLe_pairwise discountLeT discountLeT_trans discountLeT_total _
  have hpw2 : (analyzeDealsCore rates claude maxReturn (tagFrom 0 apts)).candidateOrder.Pairwise
      (fun a b => discountKey b.2 ≤ discountKey a.2) := by
    refine hpw.imp ?_
    intro a b h
    simpa [discountLeT] using h
  refine ⟨?_, hpw2, rfl, ?_, ?_⟩
  · show ((analyzeDealsCore rates claude maxReturn (tagFrom 0 apts)).candidateOrder.take
      AI_ANALYSIS_TOP_N).length ≤ AI_ANALYSIS_TOP_N
    simp [List.length_take]
  · intro x hx y hy
    have := List.take_append_drop AI_ANALYSIS_TOP_N
      (analyzeDealsCore rates claude maxReturn (tagFrom 0 apts)).candidateOrder
    rw [← this] at hpw2
    exact (List.pairwise_append.mp hpw2).2.2 x hx y hy
  · intro a ha
    unfold analyze_apartment_deals at ha
    by_cases hnil : apts = []
    · simp [hnil] at ha
    · simp only [hnil, if_false] at ha
      obtain ⟨q, hq, rfl⟩ := List.mem_map.mp ha
      have hqmem : q ∈
          ((analyzeDealsCore rates claude maxReturn (tagFrom 0 apts)).aiSelected.map
            fun p => (p.1, claude p.2)) ++
          (((analyzeDealsCore rates claude maxReturn (tagFrom 0 apts)).candidateOrder.drop
              AI_ANALYSIS_TOP_N).map
            fun p => (p.1, { p.2 with deal_analysis := some notTop20Msg })) :=
        (sortLe_perm scoreLeT _).mem_iff.mp hq
      rw [List.mem_append] at hqmem
      rcases hqmem with hqmem | hqmem
      · obtain ⟨p, hp, rfl⟩ := List.mem_map.mp hqmem
        exact Or.inl ⟨p, hp, rfl⟩
      · obtain ⟨p, hp, rfl⟩ := List.mem_map.mp hqmem
        exact Or.inr ⟨rfl, by decide⟩

/-- Input exposing the `or -999` quirk of the selection key: a listing whose
discount is exactly 0. -/
def c5Rates : MarketRates := ⟨[], [("1br".data, (1000:ℚ))]⟩

/-- 1-bedroom at exactly the market rate (discount exactly 0). -/
def c5A : Apt := { price := some 1000, bedrooms := some 1 }

/-- 1-bedroom above market (discount −3.1). -/
def c5B : Apt := { price := some 1031, bedrooms := some 1 }

/-- C5 counterexample: in the batch `[c5A, c5B]` the candidate order produced
by the code puts the −3.1 % listing *before* the 0 % listing (Python
`x.get("discount_pct") or -999` sends an exactly-zero discount to −999), so
candidates are not ordered by discount percentage descending as claimed. -/
theorem enrich_order_zero_discount_counterexample :
    ((analyzeDealsCore c5Rates id none (tagFrom 0 [c5A, c5B])).candidateOrder.map
        fun p => p.2.discount_pct) = [some (-31/10), some 0] ∧
    (-31/10 : ℚ) < 0 := by
  constructor
  · norm_num [analyzeDealsCore, c5Rates, c5A, c5B, tagFrom, computeDiscountAndScore,
      truthyPrice, hoodKeyCL, pyStrip, pyLower, replaceChar, bedKey, List.lookup,
      pyRound1, pyTrunc, roundHalfEven, clampScore, sortLe, insertLe, scoreLeT,
      discountLeT, scoreKey, discountKey, AI_ANALYSIS_TOP_N]
  · norm_num

/-! ## Claim C6 lemmas -/

/-- Membership survives the sort/trim/sort chain of the candidate selection. -/
lemma mem_of_mem_ifTakeSort (le1 le2 : TApt → TApt → Bool) (mR : Option ℕ)
    (l : List TApt) (p : TApt)
    (hp : p ∈ sortLe le2
      (match mR with
       | some m => if m < (sortLe le1 l).length then (sortLe le1 l).take m else sortLe le1 l
       | none => sortLe le1 l)) : p ∈ l := by
  have hp2 := (sortLe_perm le2 _).mem_iff.mp hp
  have hp3 : p ∈ sortLe le1 l := by
    rcases mR with _ | m
    · exact hp2
    · have hp2b : p ∈ (if m < (sortLe le1 l).length then
          (sortLe le1 l).take m else sortLe le1 l) := hp2
      by_cases hm : m < (sortLe le1 l).length
      · rw [if_pos hm] at hp2b
        exact List.mem_of_mem_take hp2b
      · rw [if_neg hm] at hp2b
        exact hp2b
  exact (sortLe_perm le1 l).mem_iff.mp hp3

/-- Every candidate in the discount-ordered selection list comes from a valid
input listing with the same tag. -/
lemma mem_core_candidates (rates : MarketRates) (claude : Apt → Apt)
    (maxReturn : Option ℕ) (tagged : List TApt) :
    ∀ p ∈ (analyzeDealsCore rates claude maxReturn tagged).candidateOrder,
      ∃ s ∈ tagged, (computeDiscountAndScore rates s.2).2 = true ∧ p.1 = s.1 := by
  intro p hp
  have hp0 : p ∈ ((tagged.map fun r => (r.1, computeDiscountAndScore rates r.2)).filter
      (fun r => r.2.2)).map (fun r => (r.1, r.2.1)) :=
    mem_of_mem_ifTakeSort scoreLeT discountLeT maxReturn _ p hp
  obtain ⟨r, hr, hrp⟩ := List.mem_map.mp hp0
  rw [List.mem_filter] at hr
  obtain ⟨r0, hr0, hr0e⟩ := List.mem_map.mp hr.1
  refine ⟨r0, hr0, ?_, ?_⟩
  · have hok : r.2.2 = true := hr.2
    rw [← hr0e] at hok
    exact hok
  · rw [← hrp, ← hr0e]

/-- Every listing in the returned batch of one core run corresponds to a valid
(tag-preserving) input listing. -/
lemma core_returned_tags (rates : MarketRates) (claude : Apt → Apt)
    (maxReturn : Option ℕ) (tagged : List TApt) :
    ∀ q ∈ (analyzeDealsCore rates claude maxReturn tagged).returned,
      ∃ s ∈ tagged, (computeDiscountAndScore rates s.2).2 = true ∧ q.1 = s.1 := by
  intro q hq
  have hret : (analyzeDealsCore rates claude maxReturn tagged).returned
      = sortLe scoreLeT
          (((analyzeDealsCore rates claude maxReturn tagged).aiSelected.map
              fun p => (p.1, claude p.2)) ++
           (((analyzeDealsCore rates claude maxReturn tagged).candidateOrder.drop
               AI_ANALYSIS_TOP_N).map
              fun p => (p.1, { p.2 with deal_analysis := some notTop20Msg }))) := rfl
  rw [hret] at hq
  have hq2 := (sortLe_perm scoreLeT _).mem_iff.mp hq
  rw [List.mem_append] at hq2
  rcases hq2 with hqm | hqm
  · obtain ⟨p, hp, hpe⟩ := List.mem_map.mp hqm
    have hpc : p ∈ (analyzeDealsCore rates claude maxReturn tagged).candidateOrder :=
      List.mem_of_mem_take hp
    obtain ⟨s, hs, hok, htag⟩ := mem_core_candidates rates claude maxReturn tagged p hpc
    exact ⟨s, hs, hok, by rw [← hpe]; exact htag⟩
  · obtain ⟨p, hp, hpe⟩ := List.mem_map.mp hqm
    have hpc : p ∈ (analyzeDealsCore rates claude maxReturn tagged).candidateOrder :=
      List.mem_of_mem_drop hp
    obtain ⟨s, hs, hok, htag⟩ := mem_core_candidates rates claude maxReturn tagged p hpc
    exact ⟨s, hs, hok, by rw [← hpe]; exact htag⟩

/-- Per-tag behaviour of one core run on an *invalid* listing (missing price
or bedrooms): its in-place final state is exactly the diagnostic produced by
`_compute_discount_and_score`, and it appears in `full`. -/
lemma core_full_of_invalid (rates : MarketRates) (claude : Apt → Apt)
    (maxReturn : Option ℕ) (tagged : List TApt)
    (Htag : ∀ (i : ℕ) (a b : Apt), (i, a) ∈ tagged → (i, b) ∈ tagged → a = b)
    (i : ℕ) (apt : Apt) (hmem : (i, apt) ∈ tagged)
    (hinv : (computeDiscountAndScore rates apt).2 = false) :
    (∀ q ∈ (analyzeDealsCore rates claude maxReturn tagged).full,
        q.1 = i → q = (i, (computeDiscountAndScore rates apt).1)) ∧
    (i, (computeDiscountAndScore rates apt).1) ∈
      (analyzeDealsCore rates claude maxReturn tagged).full := by
  have hretne : ∀ q ∈ (analyzeDealsCore rates claude maxReturn tagged).returned, q.1 ≠ i := by
    intro q hq hqi
    obtain ⟨s, hs, hok, htag⟩ := core_returned_tags rates claude maxReturn tagged q hq
    have hs1 : s.1 = i := by rw [← htag, hqi]
    have hsmem : (i, s.2) ∈ tagged := by
      rw [← hs1]
      simpa using hs
    have hsa : s.2 = apt := Htag i s.2 apt hsmem hmem
    rw [hsa] at hok
    rw [hok] at hinv
    simp at hinv
  have hfind : ((analyzeDealsCore rates claude maxReturn tagged).returned).find?
      (fun q => q.1 == i) = none := by
    apply List.find?_eq_none.mpr
    intro q hq
    simpa using hretne q hq
  have hfull : (analyzeDealsCore rates claude maxReturn tagged).full
      = ((tagged.map fun r => (r.1, computeDiscountAndScore rates r.2)).map
          fun r => (r.1, r.2.1)).map
            (fun p =>
              match (analyzeDealsCore rates claude maxReturn tagged).returned.find?
                  (fun q => q.1 == p.1) with
              | some q => (p.1, q.2)
              | none => p) := rfl
  constructor
  · intro q hq hqi
    rw [hfull, List.map_map, List.map_map] at hq
    obtain ⟨s, hs, hse⟩ := List.mem_map.mp hq
    simp only [Function.comp] at hse
    rcases hfr : ((analyzeDealsCore rates claude maxReturn tagged).returned).find?
        (fun r => r.1 == s.1) with _ | r
    · rw [hfr] at hse
      have hq2 : q = (s.1, (computeDiscountAndScore rates s.2).1) := hse.symm
      have hs1 : s.1 = i := by rw [← hqi, hq2]
      have hsmem : (i, s.2) ∈ tagged := by
        rw [← hs1]
        simpa using hs
      have hsa : s.2 = apt := Htag i s.2 apt hsmem hmem
      rw [hq2, hs1, hsa]
    · rw [hfr] at hse
      have hq2 : q = (s.1, r.2) := hse.symm
      have hs1 : s.1 = i := by rw [← hqi, hq2]
      have hrmem := List.mem_of_find?_eq_some hfr
      have hrpred := List.find?_some hfr
      have hr1 : r.1 = s.1 := by simpa using hrpred
      exact absurd (by rw [hr1, hs1]) (hretne r hrmem)
  · rw [hfull, List.map_map, List.map_map]
    refine List.mem_map.mpr ⟨(i, apt), hmem, ?_⟩
    show (match ((analyzeDealsCore rates claude maxReturn tagged).returned).find?
        (fun q => q.1 == i) with
      | some q => (i, q.2)
      | none => (i, (computeDiscountAndScore rates apt).1)) =
      (i, (computeDiscountAndScore rates apt).1)
    rw [hfind]

lemma find?_append {α : Type} (p : α → Bool) :
    ∀ l₁ l₂ : List α, (l₁ ++ l₂).find? p = ((l₁.find? p).or (l₂.find? p)) := by
  intro l₁ l₂
  induction l₁ with
  | nil => simp
  | cons x xs ih =>
    rcases hx : p x with _ | _
    · rw [List.cons_append, List.find?_cons_of_neg _ (by simp [hx]),
        List.find?_cons_of_neg _ (by simp [hx])]
      exact ih
    · rw [List.cons_append, List.find?_cons_of_pos _ hx, List.find?_cons_of_pos _ hx]
      rfl

/-- C6.  A listing without a truthy price is scored 0 with the missing-price
diagnostic and a null discount; one with a price but no bedroom count is
scored 40 with the cannot-evaluate diagnostic and a null discount; amenity
flags are never consulted (the whole record is otherwise unchanged), both
diagnostics are non-blank, and the pipeline output
(`analyze_apartment_deals_cached`, the entry point the web layer calls) still
contains the diagnosed listing — it is not dropped. -/
theorem missing_fields_kept (rates : MarketRates) (claude : Apt → Apt)
    (cacheL : Apt → Option (Option ℤ × Option Str × Option ℚ))
    (apts : List Apt) (apt : Apt) (hmem : apt ∈ apts) (hc : cacheL apt = none) :
    (truthyPrice apt.price = false →
      computeDiscountAndScore rates apt =
        ({ apt with deal_score := some 0,
                    deal_analysis := some "Price information missing.".data,
                    discount_pct := none }, false)) ∧
    (truthyPrice apt.price = true → apt.bedrooms = none →
      computeDiscountAndScore rates apt =
        ({ apt with deal_score := some 40,
                    deal_analysis :=
                      some "Bedroom count not specified — difficult to evaluate value.".data,
                    discount_pct := none }, false)) ∧
    "Price information missing.".data ≠ [] ∧
    "Bedroom count not specified — difficult to evaluate value.".data ≠ [] ∧
    ((computeDiscountAndScore rates apt).2 = false →
      (analyze_apartment_deals_cached cacheL rates claude none apts).length = apts.length ∧
      (computeDiscountAndScore rates apt).1 ∈
        analyze_apartment_deals_cached cacheL rates claude none apts) := by
  refine ⟨?_, ?_, by decide, by decide, ?_⟩
  · intro h
    simp [computeDiscountAndScore, h]
  · intro h1 h2
    simp [computeDiscountAndScore, h1, h2]
  · intro hinv
    have hne : apts ≠ [] := by
      intro h
      rw [h] at hmem
      simp at hmem
    obtain ⟨i, hi⟩ := mem_tagFrom_of_mem apts 0 apt hmem
    have hwhole : analyze_apartment_deals_cached cacheL rates claude none apts
        = sortLe cachedLe ((tagFrom 0 apts).map fun p =>
            match (((tagFrom 0 apts).filterMap fun r =>
                      (cacheL r.2).map fun e => (r.1, applyCachedEntry r.2 e)) ++
                   (analyzeDealsCore rates claude none
                      ((tagFrom 0 apts).filter fun r => (cacheL r.2).isNone)).full).find?
                (fun q => q.1 == p.1) with
            | some q => q.2
            | none => p.2) := by
      unfold analyze_apartment_deals_cached
      rw [if_neg hne]
    have HtagM : ∀ (j : ℕ) (a b : Apt),
        (j, a) ∈ ((tagFrom 0 apts).filter fun r => (cacheL r.2).isNone) →
        (j, b) ∈ ((tagFrom 0 apts).filter fun r => (cacheL r.2).isNone) → a = b := by
      intro j a b ha hb
      exact tagFrom_inj apts 0 j a b (List.mem_filter.mp ha).1 (List.mem_filter.mp hb).1
    have hmissmem : (i, apt) ∈ ((tagFrom 0 apts).filter fun r => (cacheL r.2).isNone) :=
      List.mem_filter.mpr ⟨hi, by simp [hc]⟩
    obtain ⟨huniq, hmemfull⟩ :=
      core_full_of_invalid rates claude none _ HtagM i apt hmissmem hinv
    have hhits : ∀ q ∈ ((tagFrom 0 apts).filterMap fun r =>
        (cacheL r.2).map fun e => (r.1, applyCachedEntry r.2 e)), ¬ (q.1 == i) = true := by
      intro q hq hqi
      obtain ⟨r, hr, hre⟩ := List.mem_filterMap.mp hq
      rcases hce : cacheL r.2 with _ | e
      · rw [hce] at hre
        exact Option.noConfusion hre
      · rw [hce] at hre
        have he : (r.1, applyCachedEntry r.2 e) = q := by simpa using hre
        have hri : r.1 = i := by
          rw [show r.1 = q.1 by rw [← he]]
          simpa using hqi
        have hrmem : (i, r.2) ∈ tagFrom 0 apts := by
          rw [← hri]
          simpa using hr
        have : r.2 = apt := tagFrom_inj apts 0 i r.2 apt hrmem hi
        rw [this, hc] at hce
        exact Option.noConfusion hce
    have hfindhits : (((tagFrom 0 apts).filterMap fun r =>
        (cacheL r.2).map fun e => (r.1, applyCachedEntry r.2 e)).find?
          (fun q => q.1 == i)) = none :=
      List.find?_eq_none.mpr hhits
    have hfindfull : ((analyzeDealsCore rates claude none
        ((tagFrom 0 apts).filter fun r => (cacheL r.2).isNone)).full.find?
          (fun q => q.1 == i)) = some (i, (computeDiscountAndScore rates apt).1) := by
      rcases hfr : ((analyzeDealsCore rates claude none
          ((tagFrom 0 apts).filter fun r => (cacheL r.2).isNone)).full.find?
            (fun q => q.1 == i)) with _ | r
      · exfalso
        have := List.find?_eq_none.mp hfr _ hmemfull
        simp at this
      · have hrmem := List.mem_of_find?_eq_some hfr
        have hrpred := List.find?_some hfr
        have hr1 : r.1 = i := by simpa using hrpred
        rw [hfr, huniq r hrmem hr1]
    have hfindboth : ((((tagFrom 0 apts).filterMap fun r =>
        (cacheL r.2).map fun e => (r.1, applyCachedEntry r.2 e)) ++
        (analyzeDealsCore rates claude none
          ((tagFrom 0 apts).filter fun r => (cacheL r.2).isNone)).full).find?
            (fun q => q.1 == i)) = some (i, (computeDiscountAndScore rates apt).1) := by
      rw [find?_append, hfindhits, hfindfull]
      rfl
    constructor
    · rw [hwhole, (sortLe_perm cachedLe _).length_eq, List.length_map, tagFrom_length]
    · rw [hwhole, (sortLe_perm cachedLe _).mem_iff]
      refine List.mem_map.mpr ⟨(i, apt), hi, ?_⟩
      show (match (((tagFrom 0 apts).filterMap fun r =>
              (cacheL r.2).map fun e => (r.1, applyCachedEntry r.2 e)) ++
            (analyzeDealsCore rates claude none
              ((tagFrom 0 apts).filter fun r => (cacheL r.2).isNone)).full).find?
          (fun q => q.1 == i) with
        | some q => q.2
        | none => apt) = (computeDiscountAndScore rates apt).1
      rw [hfindboth]

/-- A listing with no price field at all. -/
def aptNoPrice : Apt := { title := "x".data }

/-- Witness for C6 at a one-listing batch with an empty analysis cache. -/
theorem missing_fields_kept_witness :
    computeDiscountAndScore c5Rates aptNoPrice =
      ({ aptNoPrice with deal_score := some 0,
                         deal_analysis := some "Price information missing.".data,
                         discount_pct := none }, false) ∧
    (analyze_apartment_deals_cached (fun _ => none) c5Rates id none [aptNoPrice]).length = 1 ∧
    (computeDiscountAndScore c5Rates aptNoPrice).1 ∈
      analyze_apartment_deals_cached (fun _ => none) c5Rates id none [aptNoPrice] := by
  have h := missing_fields_kept c5Rates id (fun _ => none) [aptNoPrice] aptNoPrice
    (by simp) rfl
  have hA := h.1 rfl
  have hE := h.2.2.2.2 (by rw [hA])
  exact ⟨hA, by simpa using hE.1, hE.2⟩

/-! ## Portal cache manager (`portal_listings.py`)

The two public portal reads share the fresh / stale / budget-gate control
flow; the `_apply_portal_scores` pass (which mutates every entry in place and
therefore preserves the list structure) enters the model as the function
`applyScores`, and the external HTTP request as its (already normalised and
filtered) payload.  Each model returns, next to the listing list, the number
of HTTP requests the control flow issued. -/

/-- `CACHE_TTL` (seconds; default `604800` = 7 days). -/
def CACHE_TTL : ℤ := 604800

/-- `_fetch`: returns `[]` without a request when the API key is missing or
the (cached) monthly count has reached the cap; otherwise one HTTP request is
issued, whose network/HTTP/JSON failure is caught and degrades to `[]`.
(The ledger increment after a successful call is the C1 model.) -/
def fetchPortal (hasApiKey : Bool) (count : ℕ) (httpResult : Option (List Apt)) :
    List Apt × ℕ :=
  if ¬ hasApiKey then ([], 0)
  else if MAX_MONTHLY_CALLS ≤ count then ([], 0)
  else match httpResult with
    | some l => (l, 1)
    | none => ([], 1)

/-- The cache-miss path of `get_portal_listings_sf`: budget gate (serve stale
or empty), else fetch, score, write back (an empty fetch result only
overwrites a missing scope key), rescore, trim. -/
def sfMissPath (applyScores : List Apt → List Apt) (hasApiKey : Bool)
    (httpResult : Option (List Apt)) (stale : List Apt) (cacheHasKey : Bool)
    (count : ℕ) (maxReturn : ℕ) : List Apt × ℕ :=
  if MAX_MONTHLY_CALLS ≤ count then
    if stale ≠ [] then ((applyScores stale).take maxReturn, 0)
    else ([], 0)
  else
    let fr := fetchPortal hasApiKey count httpResult
    let entries := applyScores fr.1
    let entries2 := if entries ≠ [] ∨ ¬ cacheHasKey then entries else stale
    ((applyScores entries2).take maxReturn, fr.2)

/-- `get_portal_listings_sf` (portal_listings.py): fresh cache is served
re-scored with no fetch; a stale or missing entry falls to `sfMissPath`. -/
def get_portal_listings_sf (applyScores : List Apt → List Apt) (hasApiKey : Bool)
    (httpResult : Option (List Apt)) (cache : Option (List Apt × ℤ)) (now : ℤ)
    (count : ℕ) (maxReturn : ℕ) : List Apt × ℕ :=
  match cache with
  | some (entries, ts) =>
    if now - ts < CACHE_TTL ∧ entries ≠ [] then ((applyScores entries).take maxReturn, 0)
    else sfMissPath applyScores hasApiKey httpResult entries true count maxReturn
  | none => sfMissPath applyScores hasApiKey httpResult [] false count maxReturn

/-- `get_portal_listings_stanford`: identical fresh / stale / budget-gate
head; the two-city fetch phase (parallel fetches with per-city budget
re-checks, id-dedup, price sort, write-back, rescore) enters as its result and
request count `fetchPhase`. -/
def get_portal_listings_stanford (applyScores : List Apt → List Apt)
    (fetchPhase : List Apt × ℕ) (cache : Option (List Apt × ℤ)) (now : ℤ)
    (count : ℕ) (maxReturn : ℕ) : List Apt × ℕ :=
  match cache with
  | some (entries, ts) =>
    if now - ts < CACHE_TTL ∧ entries ≠ [] then ((applyScores entries).take maxReturn, 0)
    else if MAX_MONTHLY_CALLS ≤ count then
      if entries ≠ [] then ((applyScores entries).take maxReturn, 0)
      else ([], 0)
    else fetchPhase
  | none =>
    if MAX_MONTHLY_CALLS ≤ count then ([], 0)
    else fetchPhase

/-- `_apply_portal_scores` (portal_listings.py): score every entry in place,
then replace the analysis text of the top 25 % (score above both the
percentile threshold and 50) with the generated description.  The description
generator `_generate_ai_description` is pure text assembly and enters as
`aiDesc`; the market-rate getter is already applied to `table`. -/
def applyPortalScores (aiDesc : Apt → Str) (table : List (Str × BedRates))
    (entries : List Apt) : List Apt :=
  let scored := entries.map (scorePortalListing table)
  let scoredE := scored.filter fun a => a.deal_score.isSome
  if scoredE = [] then scored
  else
    let sortedE := sortLe (fun a b => decide (scoreKey b ≤ scoreKey a)) scoredE
    let cnt := max 1 (scoredE.length / 4)
    let threshold : ℤ := ((sortedE.get? (cnt - 1)).map fun a => a.deal_score.getD 0).getD 0
    scored.map fun a =>
      if a.deal_score.isSome = true ∧ threshold ≤ a.deal_score.getD 0 ∧ (50:ℤ) < a.deal_score.getD 0
      then { a with deal_analysis := some (aiDesc a) } else a

/-! ## Claim C3 theorem -/

/-- C3.  On a stale-or-missing scope with the monthly counter at the cap:
a non-empty previous generation is served re-scored and trimmed with no HTTP
request; with no previous generation the read returns `[]` with no request —
for both portal reads. -/
theorem stale_served_on_exhaustion (applyScores : List Apt → List Apt)
    (hasApiKey : Bool) (httpResult : Option (List Apt)) (fetchPhase : List Apt × ℕ)
    (entries : List Apt) (ts now : ℤ) (count maxReturn : ℕ)
    (hcap : MAX_MONTHLY_CALLS ≤ count)
    (hstale : ¬ (now - ts < CACHE_TTL ∧ entries ≠ [])) :
    (entries ≠ [] →
      get_portal_listings_sf applyScores hasApiKey httpResult (some (entries, ts))
          now count maxReturn = ((applyScores entries).take maxReturn, 0) ∧
      get_portal_listings_stanford applyScores fetchPhase (some (entries, ts))
          now count maxReturn = ((applyScores entries).take maxReturn, 0)) ∧
    (entries = [] →
      get_portal_listings_sf applyScores hasApiKey httpResult (some (entries, ts))
          now count maxReturn = ([], 0) ∧
      get_portal_listings_stanford applyScores fetchPhase (some (entries, ts))
          now count maxReturn = ([], 0)) ∧
    get_portal_listings_sf applyScores hasApiKey httpResult none now count maxReturn
        = ([], 0) ∧
    get_portal_listings_stanford applyScores fetchPhase none now count maxReturn
        = ([], 0) := by
  refine ⟨?_, ?_, ?_, ?_⟩
  · intro hne
    constructor
    · simp [get_portal_listings_sf, sfMissPath, hstale, hcap, hne]
    · simp [get_portal_listings_stanford, hstale, hcap, hne]
  · intro hnil
    subst hnil
    constructor
    · simp [get_portal_listings_sf, sfMissPath, hstale, hcap]
    · simp [get_portal_listings_stanford, hstale, hcap]
  · simp [get_portal_listings_sf, sfMissPath, hcap]
  · simp [get_portal_listings_stanford, hcap]

/-- Witness for C3: exhausted counter, stale one-listing generation. -/
theorem stale_served_on_exhaustion_witness :
    MAX_MONTHLY_CALLS ≤ 50 ∧
    ¬ ((700000 : ℤ) - 0 < CACHE_TTL ∧ ([c5A] : List Apt) ≠ []) ∧
    get_portal_listings_sf id true none (some ([c5A], 0)) 700000 50 10
        = ([c5A], 0) ∧
    get_portal_listings_sf id true none none 700000 50 10 = ([], 0) := by
  have h := stale_served_on_exhaustion id true none ([], 0) [c5A] 0 700000 50 10
    (by decide) (by decide)
  refine ⟨by decide, by decide, ?_, h.2.2.1⟩
  have h1 := (h.1 (by simp)).1
  simpa using h1

/-! ## Claim C4 theorems -/

/-- C4 (amended).  A cache entry with age strictly below the TTL *and a
non-empty listing list* is served directly (re-scored, trimmed) with no HTTP
request, for both portal reads. -/
theorem fresh_cache_no_fetch (applyScores : List Apt → List Apt) (hasApiKey : Bool)
    (httpResult : Option (List Apt)) (fetchPhase : List Apt × ℕ)
    (entries : List Apt) (ts now : ℤ) (count maxReturn : ℕ)
    (hfresh : now - ts < CACHE_TTL) (hne : entries ≠ []) :
    get_portal_listings_sf applyScores hasApiKey httpResult (some (entries, ts))
        now count maxReturn = ((applyScores entries).take maxReturn, 0) ∧
    get_portal_listings_stanford applyScores fetchPhase (some (entries, ts))
        now count maxReturn = ((applyScores entries).take maxReturn, 0) := by
  constructor
  · simp [get_portal_listings_sf, hfresh, hne]
  · simp [get_portal_listings_stanford, hfresh, hne]

/-- Witness for C4 (amended): a fresh non-empty entry is served with zero
HTTP requests even though budget remains. -/
theorem fresh_cache_no_fetch_witness :
    ((5 : ℤ) - 0 < CACHE_TTL) ∧
    get_portal_listings_sf id true (some []) (some ([c5A], 0)) 5 0 10 = ([c5A], 0) := by
  have h := fresh_cache_no_fetch id true (some []) ([], 0) [c5A] 0 5 0 10
    (by decide) (by simp)
  exact ⟨by decide, by simpa using h.1⟩

/-- C4 counterexample: a scope key holding a *fresh but empty* entry (written
by a previous fetch that returned nothing) is not served — the read falls
through and issues one HTTP request although the entry age (1 second) is far
below the TTL. -/
theorem fresh_empty_cache_refetch_counterexample :
    ((6 : ℤ) - 5 < CACHE_TTL) ∧
    (get_portal_listings_sf (applyPortalScores (fun _ => []) c2Table) true
        (some [c5A]) (some ([], 5)) 6 0 10).2 = 1 := by
  constructor
  · decide
  · rfl

/-! ## Scrape drivers and sample fallback (`craigslist_scraper.py`) -/

/-- `CL_LISTING_BASE`. -/
def CL_LISTING_BASE : Str := "https://sfbay.craigslist.org".data

/-- `get_sample_apartments`: the static 3-listing SF sample payload.  (The
source dicts carry presentation-only extras — `price_per_sqft`,
`price_per_bedroom`, `posted_date` — that no verified logic reads.) -/
def get_sample_apartments : List Apt :=
  [ { title := "Spacious 2BR in Mission - Newly Renovated, Hardwood Floors".data,
      url := some (CL_LISTING_BASE ++ "/sfc/apa/".data),
      price := some 3400, neighborhood := some "Mission".data,
      bedrooms := some 2, bathrooms := some 1, sqft := some 950 },
    { title := "Charming Studio near Golden Gate Park - Perfect for Singles".data,
      url := some (CL_LISTING_BASE ++ "/sfc/apa/".data),
      price := some 2100, neighborhood := some "Inner Sunset".data,
      bedrooms := some 0, bathrooms := some 1, sqft := some 450 },
    { title := "Modern 1BR in SoMa - Walk to Tech Companies".data,
      url := some (CL_LISTING_BASE ++ "/sfc/apa/".data),
      price := some 2950, neighborhood := some "SoMa".data,
      bedrooms := some 1, bathrooms := some 1, sqft := some 700 } ]

/-- `get_sample_apartments_stanford`: the static 3-listing peninsula sample. -/
def get_sample_apartments_stanford : List Apt :=
  [ { title := "Studio near Stanford - Walk to Campus".data,
      url := some (CL_LISTING_BASE ++ "/pen/apa/".data),
      price := some 1950, neighborhood := some "Palo Alto".data,
      bedrooms := some 0, bathrooms := some 1, sqft := some 450 },
    { title := "1BR in Menlo Park - Near Caltrain".data,
      url := some (CL_LISTING_BASE ++ "/pen/apa/".data),
      price := some 2400, neighborhood := some "Menlo Park".data,
      bedrooms := some 1, bathrooms := some 1, sqft := some 650 },
    { title := "2BR Shared - Redwood City, Student Friendly".data,
      url := some (CL_LISTING_BASE ++ "/pen/apa/".data),
      price := some 3200, neighborhood := some "Redwood City".data,
      bedrooms := some 2, bathrooms := some 2, sqft := some 950 } ]

/-- Python `\w` (ASCII range). -/
def isWordChar (c : Char) : Bool := c.isAlphanum ∨ c = '_'

/-- Python substring test `needle in hay` (the empty needle is in every
string, as in Python). -/
def containsSub (needle : Str) : Str → Bool
  | [] => List.isPrefixOf needle []
  | c :: rest => List.isPrefixOf needle (c :: rest) || containsSub needle rest

/-- `STANFORD_ALLOWED_NEIGHBORHOODS`. -/
def STANFORD_ALLOWED_NEIGHBORHOODS : List Str :=
  [ "palo alto".data, "menlo park".data, "east palo alto".data, "stanford".data,
    "redwood city".data, "mountain view".data, "palo alto / downtown".data,
    "downtown palo alto".data, "palo alto downtown".data, "old palo alto".data,
    "south palo alto".data, "north palo alto".data, "college terrace".data,
    "crescent park".data, "duveneck".data, "menlo park / downtown".data,
    "downtown menlo park".data, "willow".data, "belle haven".data, "shoreline".data,
    "redwood shores".data, "woodside".data, "atherton".data, "portola valley".data,
    "los altos".data, "los altos hills".data ]

/-- `_is_stanford_area_neighborhood`: lowercase, strip, drop every character
that is not a word character, whitespace, slash or hyphen, then partial match
against the allowed list (either containment direction). -/
def isStanfordAreaNeighborhood (nb : Option Str) : Bool :=
  match nb with
  | none => false
  | some s =>
    let n := pyStrip (pyLower s)
    if n = [] then false
    else
      let nClean := pyStrip (n.filter fun c => isWordChar c || pyIsSpace c || c = '/' || c = '-')
      STANFORD_ALLOWED_NEIGHBORHOODS.any fun allowed =>
        containsSub allowed nClean || containsSub nClean allowed

/-- `scrape_sf_apartments`: JSON strategy first, then HTML, then the sample
payload.  `jsonResult` / `htmlResult` are the (already price-filtered) results
of `scrape_via_json_api` / `scrape_via_html` — both catch their own failures
and return `[]`. -/
def scrape_sf_apartments (jsonResult htmlResult : List Apt) (maxListings : ℕ) :
    List Apt :=
  if jsonResult ≠ [] then jsonResult.take maxListings
  else if htmlResult ≠ [] then htmlResult.take maxListings
  else get_sample_apartments

/-- `scrape_stanford_apartments`: like the SF driver but each non-empty
strategy result is filtered to the allowed Stanford-area neighborhoods before
trimming (the strategy choice tests the *unfiltered* result, as the source
does). -/
def scrape_stanford_apartments (jsonResult htmlResult : List Apt)
    (maxListings : ℕ) : List Apt :=
  if jsonResult ≠ [] then
    (jsonResult.filter fun a => isStanfordAreaNeighborhood a.neighborhood).take maxListings
  else if htmlResult ≠ [] then
    (htmlResult.filter fun a => isStanfordAreaNeighborhood a.neighborhood).take maxListings
  else get_sample_apartments_stanford

/-! ## Claim C10 theorems -/

/-- C10 counterexample: with both scrape strategies failing,
`scrape_sf_apartments(max_listings=1)` returns the 3-listing sample payload —
more than `max_listings` (the source returns `get_sample_apartments()`
without `[:max_listings]`). -/
theorem sample_fallback_untrimmed_counterexample :
    (scrape_sf_apartments [] [] 1).length = 3 ∧
    ¬ (scrape_sf_apartments [] [] 1).length ≤ 1 ∧
    (scrape_stanford_apartments [] [] 1).length = 3 := by
  refine ⟨rfl, by simp [scrape_sf_apartments, get_sample_apartments], rfl⟩

/-- C10 (amended).  Both drivers return at most `max_listings` listings on the
scraped (JSON or HTML) paths; on the total-failure path they return the fixed
3-listing sample payload regardless of `max_listings`. -/
theorem max_listings_bound (j h : List Apt) (n : ℕ) (hj : j = [] ∨ j ≠ []) :
    (j ≠ [] → (scrape_sf_apartments j h n).length ≤ n ∧
      (scrape_stanford_apartments j h n).length ≤ n) ∧
    (j = [] → h ≠ [] → (scrape_sf_apartments j h n).length ≤ n ∧
      (scrape_stanford_apartments j h n).length ≤ n) ∧
    (j = [] → h = [] → scrape_sf_apartments j h n = get_sample_apartments ∧
      scrape_stanford_apartments j h n = get_sample_apartments_stanford) ∧
    get_sample_apartments.length = 3 ∧
    get_sample_apartments_stanford.length = 3 := by
  refine ⟨?_, ?_, ?_, rfl, rfl⟩
  · intro hne
    constructor
    · unfold scrape_sf_apartments
      rw [if_pos hne]
      exact List.length_take_le n j
    · unfold scrape_stanford_apartments
      rw [if_pos hne]
      exact List.length_take_le n _
  · intro hjn hne
    subst hjn
    constructor
    · unfold scrape_sf_apartments
      rw [if_neg (by simp), if_pos hne]
      exact List.length_take_le n h
    · unfold scrape_stanford_apartments
      rw [if_neg (by simp), if_pos hne]
      exact List.length_take_le n _
  · intro hjn hhn
    subst hjn
    subst hhn
    exact ⟨rfl, rfl⟩

/-- Witness for C10 (amended) at a one-listing JSON result and `n = 0`. -/
theorem max_listings_bound_witness :
    (scrape_sf_apartments [c5A] [] 0).length ≤ 0 ∧
    (scrape_sf_apartments [] [] 0).length = 3 := by
  have h := max_listings_bound [c5A] [] 0 (Or.inr (by simp))
  refine ⟨(h.1 (by simp)).1, ?_⟩
  have h2 := max_listings_bound ([] : List Apt) [] 0 (Or.inl rfl)
  rw [(h2.2.2.1 rfl rfl).1]
  rfl

/-! ## Claim C9: exception flow

Each fallible external step enters as an `Except`-valued input; the model
mirrors exactly which calls sit inside a `try` in the source.  The scraper
drivers catch everything (network, HTTP status, JSON and HTML parse errors),
so they are total functions of the caught outcomes.  In the portal reads the
budget-counter read `_get_cached_api_count()` (a SQLite query in
`get_monthly_api_call_count`, which has no exception handler, reached on every
stale-or-missing read and again at the head of `_fetch`) is *outside* every
`try`, so its failure propagates; the fetch phase after it is `fetchPhase`,
whose only unguarded call is that same counter read. -/

/-- `scrape_via_html`: the whole body sits in
`try ... except RequestException ... except Exception`, both returning `[]`. -/
def scrape_via_html_exc (body : Except Unit (List Apt)) : List Apt :=
  match body with
  | .ok l => l
  | .error _ => []

/-- `scrape_via_json_api`: same catch-all shape. -/
def scrape_via_json_api_exc (body : Except Unit (List Apt)) : List Apt :=
  match body with
  | .ok l => l
  | .error _ => []

/-- `scrape_sf_apartments` over fallible strategy bodies: total. -/
def scrape_sf_apartments_exc (jsonBody htmlBody : Except Unit (List Apt))
    (maxListings : ℕ) : List Apt :=
  scrape_sf_apartments (scrape_via_json_api_exc jsonBody)
    (scrape_via_html_exc htmlBody) maxListings

/-- The stale-or-missing path of both portal reads, with the unguarded
budget-counter read made explicit. -/
def portalMissExc (applyScores : List Apt → List Apt) (dbRead : Except Unit ℕ)
    (fetchPhase : Except Unit (List Apt)) (stale : List Apt) (maxReturn : ℕ) :
    Except Unit (List Apt) :=
  match dbRead with
  | .error e => .error e
  | .ok count =>
    if MAX_MONTHLY_CALLS ≤ count then
      if stale ≠ [] then .ok ((applyScores stale).take maxReturn)
      else .ok []
    else fetchPhase

/-- Exception-flow model of `get_portal_listings_sf` /
`get_portal_listings_stanford`. -/
def get_portal_listings_exc (applyScores : List Apt → List Apt)
    (dbRead : Except Unit ℕ) (fetchPhase : Except Unit (List Apt))
    (cache : Option (List Apt × ℤ)) (now : ℤ) (maxReturn : ℕ) :
    Except Unit (List Apt) :=
  match cache with
  | some (entries, ts) =>
    if now - ts < CACHE_TTL ∧ entries ≠ [] then .ok ((applyScores entries).take maxReturn)
    else portalMissExc applyScores dbRead fetchPhase entries maxReturn
  | none => portalMissExc applyScores dbRead fetchPhase [] maxReturn

/-- C9 counterexample: on a missing cache scope, a storage failure of the
monthly-counter read propagates out of the portal read — the caller sees the
exception, not an empty result. -/
theorem portal_db_error_propagates_counterexample :
    get_portal_listings_exc id (.error ()) (.ok []) none 0 10 = .error () ∧
    (∀ l : List Apt, get_portal_listings_exc id (.error ()) (.ok []) none 0 10 ≠ .ok l) := by
  constructor
  · rfl
  · intro l h
    rw [show get_portal_listings_exc id (.error ()) (.ok []) none 0 10
      = Except.error () from rfl] at h
    exact Except.noConfusion h

/-- C9 (amended).  The scraper reads never raise: total failure of both
strategies still returns the sample payload, and a failing HTML scrape body
returns `[]`.  The portal reads never raise from network/parse either, and a
fresh-cache read performs no counter read at all; but on a stale-or-missing
scope any error of the read is an error of the unguarded budget-counter read
or of the fetch phase it guards — when both succeed the read returns
normally. -/
theorem exception_containment (applyScores : List Apt → List Apt)
    (fetchPhase : Except Unit (List Apt)) (entries : List Apt) (ts now : ℤ)
    (c maxReturn n : ℕ) :
    scrape_sf_apartments_exc (.error ()) (.error ()) n = get_sample_apartments ∧
    scrape_via_html_exc (.error ()) = [] ∧
    (now - ts < CACHE_TTL ∧ entries ≠ [] →
      get_portal_listings_exc applyScores (.error ()) fetchPhase (some (entries, ts))
          now maxReturn = .ok ((applyScores entries).take maxReturn)) ∧
    (∀ cache e, get_portal_listings_exc applyScores (.ok c) fetchPhase cache now maxReturn
        = .error e → fetchPhase = .error e) := by
  refine ⟨rfl, rfl, ?_, ?_⟩
  · intro hfresh
    simp [get_portal_listings_exc, hfresh]
  · intro cache e h
    rcases cache with _ | ⟨centries, cts⟩
    · simp only [get_portal_listings_exc, portalMissExc] at h
      split at h
      · split at h <;> exact Except.noConfusion h
      · exact h
    · simp only [get_portal_listings_exc] at h
      split at h
      · exact Except.noConfusion h
      · simp only [portalMissExc] at h
        split at h
        · split at h <;> exact Except.noConfusion h
        · exact h

/-- Witness for C9 (amended): fresh one-listing cache entry, failing counter
read — the read still succeeds with the cached data. -/
theorem exception_containment_witness :
    ((5 : ℤ) - 0 < CACHE_TTL ∧ ([c5A] : List Apt) ≠ []) ∧
    get_portal_listings_exc id (.error ()) (.ok []) (some ([c5A], 0)) 5 10
        = .ok [c5A] ∧
    scrape_sf_apartments_exc (.error ()) (.error ()) 7 = get_sample_apartments := by
  have h := exception_containment id (.ok []) [c5A] 0 5 0 10 7
  refine ⟨⟨by decide, by simp⟩, ?_, h.1⟩
  have h3 := h.2.2.1 ⟨by decide, by simp⟩
  simpa using h3

/-! ## Price extraction (`extract_price_from_text`, `parse_listing`) -/

/-- `int(m.group(1).replace(",", ""))` for a `[\d,]+` group: `none` is the
`ValueError` of an all-comma group (caught, scan continues). -/
def parseAmount (run : Str) : Option ℕ :=
  let digits := run.filter fun c => c ≠ ','
  if digits = [] then none
  else some (digits.foldl (fun acc c => 10 * acc + (c.toNat - '0'.toNat)) 0)

/-- Fuel-bounded scan of `re.finditer(r"\$[\s]*([\d,]+)", text)` with the
plausible-rent filter: at each `$` skip whitespace, read the digit/comma run;
an in-range value is returned, an out-of-range or unparsable one is skipped
and scanning resumes after the match (or at the next character when the
pattern does not match here).  The fuel `length text` suffices because every
step consumes at least one character. -/
def extractPriceAux : ℕ → Str → Option ℕ
  | 0, _ => none
  | _ + 1, [] => none
  | fuel + 1, c :: rest =>
    if c = '$' then
      let rest2 := rest.dropWhile pyIsSpace
      let run := rest2.takeWhile fun d => d.isDigit || d = ','
      let rest3 := rest2.dropWhile fun d => d.isDigit || d = ','
      if run ≠ [] then
        match parseAmount run with
        | some v => if 500 ≤ v ∧ v ≤ 15000 then some v else extractPriceAux fuel rest3
        | none => extractPriceAux fuel rest3
      else extractPriceAux fuel rest
    else extractPriceAux fuel rest

/-- `extract_price_from_text` (craigslist_scraper.py): first dollar amount in
`[500, 15000]`, else `None`. -/
def extract_price_from_text (cs : Str) : Option ℕ := extractPriceAux cs.length cs

/-- The price-extraction inputs of one `parse_listing` call: the six
element-based strategies (DOM queries and their regexes, abstracted as the
value each would assign; `none` covers a missing element and a failed regex),
the raw strategy-7 regex match (`\$\s*([\d,]{4,6})(?!\d)`, before its inline
range check), and the two text blobs of the final fallback. -/
structure ParseStrategies where
  s1 : Option ℕ := none
  s2 : Option ℕ := none
  s3 : Option ℕ := none
  s4 : Option ℕ := none
  s5 : Option ℕ := none
  s6 : Option ℕ := none
  s7 : Option ℕ := none
  listingText : Str := []
  title : Str := []
  titleFound : Bool := true

/-- One `if not price:` cascade step: a truthy accumulator short-circuits, a
failed strategy leaves it unchanged (so a strategy value of `0` is re-tried,
as in the source). -/
def chainStep (acc : Option ℕ) (s : Option ℕ) : Option ℕ :=
  if truthyPrice acc then acc
  else match s with
    | some v => some v
    | none => acc

/-- The value of `price` after the six element-based strategies. -/
def parseChain6 (src : ParseStrategies) : Option ℕ :=
  [src.s1, src.s2, src.s3, src.s4, src.s5, src.s6].foldl chainStep none

/-- ... after strategy 7 (the text regex with its inline `500 ≤ · ≤ 15000`
check). -/
def parseP1 (src : ParseStrategies) : Option ℕ :=
  if truthyPrice (parseChain6 src) then parseChain6 src
  else match src.s7 with
    | some e => if 500 ≤ e ∧ e ≤ 15000 then some e else parseChain6 src
    | none => parseChain6 src

/-- ... after the `extract_price_from_text` fallback on the listing text and
the title (Python `or`: the fallback overwrites an untruthy value). -/
def parseP2 (src : ParseStrategies) : Option ℕ :=
  if truthyPrice (parseP1 src) then parseP1 src
  else (extract_price_from_text src.listingText).or (extract_price_from_text src.title)

/-- The price cascade of `parse_listing` (craigslist_scraper.py lines
757–843): strategies 1–6, the range-checked strategy 7, the
`extract_price_from_text` fallback, the `if not price: return None` guard and
the final plausibility guard. -/
def parse_listing_price (src : ParseStrategies) : Option ℕ :=
  if ¬ src.titleFound then none
  else if ¬ truthyPrice (parseP2 src) then none
  else match parseP2 src with
    | some p => if p < 500 ∨ 15000 < p then none else some p
    | none => none

lemma extractPriceAux_range :
    ∀ (fuel : ℕ) (cs : Str) (v : ℕ),
      extractPriceAux fuel cs = some v → 500 ≤ v ∧ v ≤ 15000 := by
  intro fuel
  induction fuel with
  | zero => intro cs v h; simp [extractPriceAux] at h
  | succ f ih =>
    intro cs v h
    cases cs with
    | nil => simp [extractPriceAux] at h
    | cons c rest =>
      rw [extractPriceAux] at h
      dsimp only at h
      split at h
      · split at h
        · split at h
          · split at h
            · obtain rfl : _ = v := (Option.some.injEq _ _).mp h
              assumption
            · exact ih _ _ h
          · exact ih _ _ h
        · exact ih _ _ h
      · exact ih _ _ h

/-- C7.  The free-text dollar-amount fallback only recovers values in
`[500, 15000]` (anything outside is rejected as extraction noise and scanning
continues), every price `parse_listing` emits is in `[500, 15000]`, and a
listing for which no strategy and no text blob yields an in-range price
produces no listing at all. -/
theorem price_extraction_bounds :
    (∀ (text : Str) (v : ℕ),
      extract_price_from_text text = some v → 500 ≤ v ∧ v ≤ 15000) ∧
    (∀ (src : ParseStrategies) (v : ℕ),
      parse_listing_price src = some v → 500 ≤ v ∧ v ≤ 15000) ∧
    (∀ src : ParseStrategies,
      truthyPrice (parseChain6 src) = false →
      (∀ e, src.s7 = some e → e < 500 ∨ 15000 < e) →
      extract_price_from_text src.listingText = none →
      extract_price_from_text src.title = none →
      parse_listing_price src = none) := by
  have hext : ∀ (text : Str) (v : ℕ),
      extract_price_from_text text = some v → 500 ≤ v ∧ v ≤ 15000 := by
    intro text v h
    exact extractPriceAux_range _ _ _ h
  refine ⟨hext, ?_, ?_⟩
  · intro src v h
    unfold parse_listing_price at h
    split at h
    · exact Option.noConfusion h
    · split at h
      · exact Option.noConfusion h
      · split at h
        · split at h
          · exact Option.noConfusion h
          · obtain rfl : _ = v := (Option.some.injEq _ _).mp h
            rename_i hp2 hrange
            push_neg at hrange
            exact hrange
        · exact Option.noConfusion h
  · intro src h0 h7 hl ht
    have hp1 : parseP1 src = parseChain6 src := by
      unfold parseP1
      rw [if_neg (by simp [h0])]
      rcases h7e : src.s7 with _ | e
      · rfl
      · have he := h7 e h7e
        show (if 500 ≤ e ∧ e ≤ 15000 then some e else parseChain6 src) = parseChain6 src
        rw [if_neg (by omega)]
    have hp2 : parseP2 src = none := by
      unfold parseP2
      rw [hp1, if_neg (by simp [h0]), hl, ht]
      rfl
    unfold parse_listing_price
    rw [hp2]
    split
    · rfl
    · rw [if_pos (by simp [truthyPrice])]

/-- Witness for C7: `$12` is skipped as noise, `$1,200` is recovered; a text
with only out-of-range amounts extracts nothing, and a listing whose
strategies all fail and whose blobs hold only out-of-range amounts is
rejected. -/
theorem price_extraction_bounds_witness :
    extract_price_from_text "rent $12 only $1,200 per month".data = some 1200 ∧
    (500 ≤ 1200 ∧ 1200 ≤ 15000) ∧
    extract_price_from_text "$16,000 mansion $300 parking".data = none ∧
    parse_listing_price
      { s7 := some 20000, listingText := "$16,000 mansion $300 parking".data,
        title := "$2 special".data } = none := by
  have hev : extract_price_from_text "rent $12 only $1,200 per month".data = some 1200 := by
    decide
  refine ⟨hev, price_extraction_bounds.1 _ 1200 hev, by decide, ?_⟩
  refine price_extraction_bounds.2.2 _ (by decide) ?_ (by decide) (by decide)
  intro e he
  obtain rfl : (20000 : ℕ) = e := (Option.some.injEq _ _).mp he
  decide

/-! ## The enrichment response parse (`_call_claude_for_apartment`) -/

/-- Greedy head digit run of `(\d+)`. -/
def digitsHere (cs : Str) : Option ℕ :=
  let run := cs.takeWhile Char.isDigit
  if run = [] then none
  else some (run.foldl (fun acc c => 10 * acc + (c.toNat - '0'.toNat)) 0)

/-- Match `SCORE:\s*(\d+)` anchored at the current position. -/
def scoreHere (cs : Str) : Option ℕ :=
  if List.isPrefixOf "SCORE:".data cs then
    digitsHere ((cs.drop 6).dropWhile pyIsSpace)
  else none

/-- `re.search(r"SCORE:\s*(\d+)", text)`: the leftmost full match. -/
def findScore : Str → Option ℕ
  | [] => none
  | c :: rest =>
    match scoreHere (c :: rest) with
    | some n => some n
    | none => findScore rest

/-- The `deal_score` update of the response-parse branch of
`_call_claude_for_apartment`:
`int(score_match.group(1)) if score_match else apt.get("deal_score", 50)` —
the key is always present here, so the fallback keeps the stored value. -/
def claudeApplyScore (text : Str) (apt : Apt) : Apt :=
  { apt with deal_score :=
      match findScore text with
      | some s => some (s : ℤ)
      | none => apt.deal_score }

lemma clampScore_bounds (x : ℤ) : 0 ≤ clampScore x ∧ clampScore x ≤ 100 := by
  unfold clampScore
  constructor <;> simp [le_max_iff, min_le_iff]

/-- C8 counterexample: a response reading `SCORE: 150` makes the AI overwrite
path store `deal_score = 150`, outside the claimed 0–100 range — the parse is
not clamped. -/
theorem ai_score_unclamped_counterexample :
    (claudeApplyScore "SCORE: 150\nANALYSIS: Good value.".data c5A).deal_score
        = some 150 ∧
    ¬ ((150 : ℤ) ≤ 100) := by
  constructor
  · rfl
  · decide

/-- C8 (amended).  Every non-null score the two heuristic scorers emit is in
`[0, 100]`; the AI overwrite path stores the parsed `SCORE:` integer verbatim
(never negative, since the regex only matches digits), so its result is in
`[0, 100]` exactly when the response's score is at most 100, and a response
with no `SCORE:` line keeps the previously stored score. -/
theorem deal_score_range (rates : MarketRates) (table : List (Str × BedRates))
    (apt : Apt) :
    (∀ s : ℤ, (computeDiscountAndScore rates apt).1.deal_score = some s →
      0 ≤ s ∧ s ≤ 100) ∧
    (∀ s : ℤ, (scorePortalListing table apt).deal_score = some s →
      0 ≤ s ∧ s ≤ 100) ∧
    (∀ (text : Str) (n : ℕ), findScore text = some n →
      (claudeApplyScore text apt).deal_score = some (n : ℤ) ∧ 0 ≤ (n : ℤ) ∧
        ((n : ℤ) ≤ 100 ↔ n ≤ 100)) ∧
    (∀ text : Str, findScore text = none →
      (claudeApplyScore text apt).deal_score = apt.deal_score) := by
  refine ⟨?_, ?_, ?_, ?_⟩
  · intro s h
    unfold computeDiscountAndScore at h
    split at h
    · obtain rfl : (0 : ℤ) = s := by simpa using h
      decide
    · split at h
      · obtain rfl : (40 : ℤ) = s := by simpa using h
        decide
      · obtain rfl : _ = s := by simpa using h
        exact clampScore_bounds _
  · intro s h
    unfold scorePortalListing at h
    split at h
    · obtain rfl : (0 : ℤ) = s := by simpa using h
      decide
    · split at h
      · obtain rfl : (40 : ℤ) = s := by simpa using h
        decide
      · obtain rfl : _ = s := by simpa using h
        exact clampScore_bounds _
  · intro text n h
    refine ⟨?_, by positivity, by exact_mod_cast Iff.rfl⟩
    unfold claudeApplyScore
    rw [h]
  · intro text h
    unfold claudeApplyScore
    rw [h]

/-- Witness for C8 (amended): the scorer clamp at a concrete listing and the
verbatim store of a parsed score of 95. -/
theorem deal_score_range_witness :
    (scorePortalListing c2Table c2Apt).deal_score = some 53 ∧
    (0 ≤ (53 : ℤ) ∧ (53 : ℤ) ≤ 100) ∧
    findScore "SCORE: 95\nANALYSIS: ok.".data = some 95 ∧
    (claudeApplyScore "SCORE: 95\nANALYSIS: ok.".data c2Apt).deal_score = some 95 := by
  have h53 : (scorePortalListing c2Table c2Apt).deal_score = some 53 := by
    norm_num [scorePortalListing, c2Table, c2Apt, hoodKeyP, pyStrip, pyLower, replaceChar,
      bedKey, truthyPrice, pyRound1, pyTrunc, roundHalfEven, clampScore, List.lookup]
  have hf : findScore "SCORE: 95\nANALYSIS: ok.".data = some 95 := by decide
  refine ⟨h53, (deal_score_range ⟨[], []⟩ c2Table c2Apt).2.1 53 h53, hf, ?_⟩
  exact ((deal_score_range ⟨[], []⟩ c2Table c2Apt).2.2.1 _ 95 hf).1

end RandomDash
